import Mathlib

/-!
Verification of the CMSCure JavaScript SDK content-synchronization engine
(`src/cmscure.js`).  The SDK class is embedded shallowly: its private fields
become the fields of the `SDK` structure below, and each method becomes a pure
Lean function from `SDK` to `SDK` (returning additional data where the method
returns a value or emits events).  JavaScript-specific semantics are modelled
explicitly:

* string falsiness (`!value` is true for both `undefined`/`null` and `""`) via
  `jsTruthy` on `Option String`, where `none` stands for `undefined`/`null`;
* nullish coalescing (`a ?? b`) by pattern matching on `Option`;
* `Object.is` value identity: primitive values compare by value, arrays by an
  allocation identity.  `JSVal.varr` carries an allocation id together with the
  array's contents; every expression that allocates a fresh array in the source
  (`[...this.#availableLanguages]`, the `[]` fallbacks, `data.items || []`)
  draws a fresh id from the `nextId` counter of the state.

Asynchrony: the SDK is single threaded; an `async` sync method runs
synchronously up to its `await fetch(...)` and the remainder runs when the
response arrives.  Accordingly each sync method is split into a `...Start`
function (the synchronous prefix: the in-flight guard and marker) and a
`...Complete` function (the continuation, parameterised by the fetch outcome
`Fetch β`).  `...Full` composes the two, which is adequate whenever no other
code runs between request and response.  The multiset `pendingTabFetches`
instruments the state with the currently outstanding tab fetches (one entry
pushed per fetch actually started, removed when it completes); it corresponds
to no source variable and no modelled function reads it.

Binding listeners are identified by numeric tokens; invoking a listener is
modelled by recording `(listener, value)` in a returned log.  Persistence of
the JSON-serialised caches (`#saveCacheToStorage`) is not modelled: no claim
reads those storage keys.  The only storage key both written and read by the
modelled code is `cmscure_current_language`.
-/

namespace CMSCure

/-! ### Generic association-list and list helpers (JS `Map`/`Set`/object semantics) -/

/-- Lookup in an association list (first match; our maps keep keys unique). -/
def lookupA {κ α : Type} [DecidableEq κ] : List (κ × α) → κ → Option α
  | [], _ => none
  | (k, v) :: rest, key => if k = key then some v else lookupA rest key

/-- Assignment `m[k] = v` on a JS object / `Map.set`: replace in place or append. -/
def assocSet {κ α : Type} [DecidableEq κ] : List (κ × α) → κ → α → List (κ × α)
  | [], k, v => [(k, v)]
  | (k', v') :: rest, k, v => if k' = k then (k, v) :: rest else (k', v') :: assocSet rest k v

/-- `Map.delete` on an association list. -/
def assocErase {κ α : Type} [DecidableEq κ] : List (κ × α) → κ → List (κ × α)
  | [], _ => []
  | (k', v') :: rest, k => if k' = k then rest else (k', v') :: assocErase rest k

/-- JS `Set.add`: append if absent (insertion order preserved). -/
def insertA {α : Type} [DecidableEq α] (l : List α) (x : α) : List α :=
  if x ∈ l then l else l ++ [x]

/-- Remove one occurrence of an element. -/
def eraseA {α : Type} [DecidableEq α] : List α → α → List α
  | [], _ => []
  | y :: rest, x => if y = x then rest else y :: eraseA rest x

/-- Count occurrences of an element. -/
def countA {α : Type} [DecidableEq α] : List α → α → Nat
  | [], _ => 0
  | y :: rest, x => (if y = x then 1 else 0) + countA rest x

/-! ### JavaScript value and string semantics -/

/-- JS truthiness of a possibly-absent string: `undefined`, `null` and `""` are falsy. -/
def jsTruthy : Option String → Bool
  | none => false
  | some s => decide (s ≠ "")

/-- JS `a || b` on possibly-absent strings. -/
def jsOr (a b : Option String) : Option String := if jsTruthy a then a else b

/-- Whitespace characters recognised by the model of `String.prototype.trim`. -/
def isWS (c : Char) : Bool := c = ' ' ∨ c = '\t' ∨ c = '\n' ∨ c = '\r'

/-- Model of JS `reference.trim()`. -/
def jsTrim (s : String) : String :=
  String.mk (((s.data.dropWhile isWS).reverse.dropWhile isWS).reverse)

/-- Model of JS `String.prototype.toLowerCase()` (character-wise lowering). -/
def jsToLower (s : String) : String := String.mk (s.data.map Char.toLower)

/-- Model of JS `String.prototype.split(sep)` for a single-character separator
(always returns at least one piece). -/
def splitCh (sep : Char) : List Char → List (List Char)
  | [] => [[]]
  | c :: rest =>
    match splitCh sep rest with
    | [] => [[c]]
    | h :: t => if c = sep then [] :: h :: t else (c :: h) :: t

/-- A JS runtime value as returned by `resolve`: `null`/`undefined`, a string,
or an array carrying its allocation identity and contents.  Array contents are
abstracted to lists of strings (store records are opaque to the SDK). -/
inductive JSVal where
  | vnull
  | vstr (s : String)
  | varr (id : Nat) (items : List String)
  deriving DecidableEq

/-- `Object.is` restricted to the values `resolve` can produce: strings compare
by value, arrays by reference identity. -/
def objectIs : JSVal → JSVal → Bool
  | .vnull, .vnull => true
  | .vstr a, .vstr b => a = b
  | .varr i _, .varr j _ => i = j
  | _, _ => false

/-! ### Data model (fields of the `CMSCureSDK` class, source lines 6-30) -/

/-- A color cache entry: the source tolerates a plain string or an object with
`hex`/`value`/`color` fields (source line 109). -/
inductive ColorEntry where
  | cstr (value : String)
  | cobj (hex value color : Option String)
  deriving DecidableEq

/-- A binding channel (source lines 176-182): a set of listeners plus the
last value delivered. -/
structure Channel where
  listeners : List Nat
  lastValue : JSVal
  deriving DecidableEq

/-- Per-tab translation map: key to (language to value), `#cache[tab]`. -/
abbrev TabMap := List (String × List (String × String))

/-- The SDK state: one field per private field of the class.  The JS `#cache`
object holds translation tabs together with the sentinel keys `__colors__` and
`__images__`, whose entries have different shapes; it is modelled as the three
typed fields `cache`, `colorsCache` and `imagesCache` (absent sentinel key =
`none`).  `dataStoreCache` stores each list together with its array identity.
`pendingTabFetches` is model instrumentation (see module docstring). -/
structure SDK where
  configSet : Bool
  authToken : Option String
  availableLanguages : List String
  availableLanguageLookup : List (String × String)
  currentLanguage : String
  cache : List (String × TabMap)
  colorsCache : Option (List (String × ColorEntry))
  imagesCache : Option (List (String × String))
  dataStoreCache : List (String × (Nat × List String))
  knownTabs : List String
  knownStores : List String
  autoSubscribedTabs : List String
  autoSubscribedStores : List String
  autoSubscribedColors : Bool
  autoSubscribedImages : Bool
  syncingTabs : List String
  syncingStores : List String
  colorsSyncInFlight : Bool
  imagesSyncInFlight : Bool
  pendingTabFetches : List String
  autoLanguageResolved : Bool
  desiredDefaultLanguage : Option String
  bindingChannels : List (String × Channel)
  nextId : Nat
  storage : List (String × String)

/-- Initial field values of a freshly constructed SDK (source lines 6-30),
before `#loadState` has read anything from storage. -/
def initSDK : SDK where
  configSet := false
  authToken := none
  availableLanguages := ["en"]
  availableLanguageLookup := [("en", "en")]
  currentLanguage := "en"
  cache := []
  colorsCache := none
  imagesCache := none
  dataStoreCache := []
  knownTabs := []
  knownStores := []
  autoSubscribedTabs := []
  autoSubscribedStores := []
  autoSubscribedColors := false
  autoSubscribedImages := false
  syncingTabs := []
  syncingStores := []
  colorsSyncInFlight := false
  imagesSyncInFlight := false
  pendingTabFetches := []
  autoLanguageResolved := false
  desiredDefaultLanguage := none
  bindingChannels := []
  nextId := 0
  storage := []

/-- `#storageGet` (source lines 291-300), as a read of the storage map. -/
def storageGet (s : SDK) (key : String) : Option String := lookupA s.storage key

/-- `#storageSet` (source lines 302-310). -/
def storageSet (s : SDK) (key value : String) : SDK :=
  { s with storage := assocSet s.storage key value }

/-- `#updateAvailableLanguageLookup` (source lines 274-278):
`new Map(langs.map(l => [l.toLowerCase(), l]))`; later entries win, as with the
JS `Map` constructor. -/
def buildLookup (langs : List String) : List (String × String) :=
  langs.foldl (fun m l => assocSet m (jsToLower l) l) []

/-! ### Sync start phases (synchronous prefixes of the async sync methods) -/

/-- Synchronous prefix of `#syncTab` (source lines 726-736): the configuration
guard, the in-flight dedup guard (`skip if already running`, bypassed by
`force`), the in-flight marker, and the start of the HTTP request. -/
def syncTabStart (s : SDK) (tab : String) (force : Bool) : SDK :=
  if s.configSet = false then s
  else if tab ∈ s.syncingTabs ∧ force = false then s
  else { s with syncingTabs := insertA s.syncingTabs tab
                pendingTabFetches := tab :: s.pendingTabFetches }

/-- Synchronous prefix of `#syncColors` (source lines 821-830). -/
def syncColorsStart (s : SDK) : SDK :=
  if s.configSet = false then s
  else if s.colorsSyncInFlight then s
  else { s with colorsSyncInFlight := true }

/-- Synchronous prefix of `#syncImages` (source lines 775-783). -/
def syncImagesStart (s : SDK) : SDK :=
  if s.configSet = false then s
  else if s.imagesSyncInFlight then s
  else { s with imagesSyncInFlight := true }

/-- Synchronous prefix of `#syncStore` (source lines 867-876). -/
def syncStoreStart (s : SDK) (ident : String) (force : Bool) : SDK :=
  if s.configSet = false then s
  else if ident ∈ s.syncingStores ∧ force = false then s
  else { s with syncingStores := insertA s.syncingStores ident }

/-! ### Subscription registry (source lines 630-658) -/

/-- `#ensureTabSubscription` (source lines 630-636). -/
def ensureTabSubscription (s : SDK) (tab : String) : SDK :=
  if tab = "" then s
  else if tab ∈ s.autoSubscribedTabs then s
  else syncTabStart { s with autoSubscribedTabs := insertA s.autoSubscribedTabs tab } tab false

/-- `#ensureColorsSubscription` (source lines 638-643). -/
def ensureColorsSubscription (s : SDK) : SDK :=
  if s.autoSubscribedColors then s
  else syncColorsStart { s with autoSubscribedColors := true }

/-- `#ensureImagesSubscription` (source lines 645-650). -/
def ensureImagesSubscription (s : SDK) : SDK :=
  if s.autoSubscribedImages then s
  else syncImagesStart { s with autoSubscribedImages := true }

/-- `#ensureStoreSubscription` (source lines 652-658). -/
def ensureStoreSubscription (s : SDK) (ident : String) : SDK :=
  if ident = "" then s
  else if ident ∈ s.autoSubscribedStores then s
  else syncStoreStart { s with autoSubscribedStores := insertA s.autoSubscribedStores ident } ident false

/-! ### Public query methods (source lines 88-119) -/

/-- The cache read `this.#cache?.[tab]?.[key]?.[this.#currentLanguage]`
(source line 90). -/
def translationLookup (s : SDK) (tab key : String) : Option String :=
  (lookupA s.cache tab).bind fun m => (lookupA m key).bind fun vs => lookupA vs s.currentLanguage

/-- `translation(key, tab, defaultValue)` (source lines 88-95).  Returns the
value handed to the caller together with the post-call state.  `!value`
triggers the background sync for both a missing key and a cached `""`, while
the returned `value ?? defaultValue ?? fallback` passes a cached `""` through. -/
def translationGet (s : SDK) (key tab : String) (defaultValue : Option String) : String × SDK :=
  let s1 := ensureTabSubscription s tab
  let value := translationLookup s1 tab key
  let s2 := if jsTruthy value then s1 else syncTabStart s1 tab false
  (match value with
   | some v => v
   | none =>
     match defaultValue with
     | some d => d
     | none => "[" ++ tab ++ ":" ++ key ++ "]",
   s2)

/-- The color shape sniffing of source line 109:
`typeof e === 'string' ? e : e?.hex || e?.value || e?.color || null`. -/
def colorValue : Option ColorEntry → Option String
  | none => none
  | some (.cstr v) => some v
  | some (.cobj h v c) =>
    let r := jsOr (jsOr h v) c
    if jsTruthy r then r else none

/-- `color(key, defaultValue)` (source lines 106-114); `defaultValue` is the
already-coalesced JS value (`defaultValue ?? null`). -/
def colorGet (s : SDK) (key : String) (defaultValue : JSVal) : JSVal × SDK :=
  let s1 := ensureColorsSubscription s
  let value := colorValue (s1.colorsCache.bind fun m => lookupA m key)
  let s2 := if jsTruthy value then s1 else syncColorsStart s1
  (match value with
   | some v => .vstr v
   | none => defaultValue,
   s2)

/-- `image(key, defaultValue)` (source lines 97-104);
`this.#cache.__images__?.[key]?.url || null`. -/
def imageGet (s : SDK) (key : String) (defaultValue : JSVal) : JSVal × SDK :=
  let s1 := ensureImagesSubscription s
  let url := jsOr (s1.imagesCache.bind fun m => lookupA m key) none
  let s2 := if jsTruthy url then s1 else syncImagesStart s1
  (match url with
   | some u => .vstr u
   | none => defaultValue,
   s2)

/-- `dataStore(apiIdentifier, defaultValue)` body (source lines 116-119) with
the fallback value already evaluated by the caller. -/
def dataStoreGet (s : SDK) (ident : String) (fallback : JSVal) : JSVal × SDK :=
  let s1 := ensureStoreSubscription s ident
  (match lookupA s1.dataStoreCache ident with
   | some (aid, items) => .varr aid items
   | none => fallback,
   s1)

/-- `dataStore(apiIdentifier)` called without a default: the default parameter
`[]` allocates a fresh empty array. -/
def dataStorePublic (s : SDK) (ident : String) : JSVal × SDK :=
  dataStoreGet { s with nextId := s.nextId + 1 } ident (.varr s.nextId [])

/-- `getAvailableLanguages()` (source lines 84-86): `[...this.#availableLanguages]`
allocates a fresh array on every call. -/
def getAvailableLanguagesV (s : SDK) : JSVal × SDK :=
  (.varr s.nextId s.availableLanguages, { s with nextId := s.nextId + 1 })

/-! ### Reference resolution (source lines 121-167) -/

/-- Parsed shape of a reference string: the dispatch performed by `resolve` on
`trimmed.split(':')` (source lines 126-166). -/
inductive RefKind where
  | invalid
  | colorRef (key : String)
  | imageRef (key : String)
  | storeRef (ident : String)
  | metaLanguage
  | metaLanguages
  | metaAuthToken
  | metaOther
  | tabEmpty (pfx : String)
  | tabKey (tab key : String)
  deriving DecidableEq

/-- The parsing part of `resolve` (source lines 122-138 and the `switch`
scrutinees): trim, split on `:`, first part is the routing word, the
remainder is the rest re-joined with `:`. -/
def parseRef (reference : String) : RefKind :=
  if reference = "" then .invalid
  else
    let trimmed := jsTrim reference
    if trimmed = "" then .invalid
    else
      match splitCh ':' trimmed.data with
      | [] => .invalid
      | p :: rest =>
        let pfx := String.mk p
        let remainder := String.mk (List.intercalate [':'] rest)
        if pfx = "color" then .colorRef remainder
        else if pfx = "image" then .imageRef remainder
        else if pfx = "store" then .storeRef remainder
        else if pfx = "meta" then
          if remainder = "language" ∨ remainder = "current_language" then .metaLanguage
          else if remainder = "languages" ∨ remainder = "available_languages" then .metaLanguages
          else if remainder = "auth_token" then .metaAuthToken
          else .metaOther
        else if remainder = "" then .tabEmpty pfx
        else .tabKey pfx remainder

/-- `resolve(reference, defaultValue)` (source lines 121-167).  `defaultValue`
is `none` when the JS argument is `undefined`.  Every branch coalesces the
default exactly as the source does (`?? null`, `Array.isArray(...) ? ... : []`,
`typeof ... === 'string'`). -/
def resolveVal (s : SDK) (reference : String) (defaultValue : Option JSVal) : JSVal × SDK :=
  match parseRef reference with
  | .invalid => (defaultValue.getD .vnull, s)
  | .colorRef key => colorGet s key (defaultValue.getD .vnull)
  | .imageRef key => imageGet s key (defaultValue.getD .vnull)
  | .storeRef ident =>
    match defaultValue with
    | some (.varr aid items) => dataStoreGet s ident (.varr aid items)
    | _ => dataStoreGet { s with nextId := s.nextId + 1 } ident (.varr s.nextId [])
  | .metaLanguage => (.vstr s.currentLanguage, s)
  | .metaLanguages => getAvailableLanguagesV s
  | .metaAuthToken =>
    (match s.authToken with
     | some t => .vstr t
     | none => .vnull,
     s)
  | .metaOther => (defaultValue.getD .vnull, s)
  | .tabEmpty pfx => (defaultValue.getD (.vstr ("[" ++ pfx ++ ":]")), s)
  | .tabKey tab key =>
    let d : Option String :=
      match defaultValue with
      | some (.vstr d) => some d
      | _ => none
    let r := translationGet s key tab d
    (.vstr r.1, r.2)

/-! ### Binding registry (source lines 169-231) -/

/-- `observe(reference, listener, options)` (source lines 169-201).  Listeners
are identified by numeric tokens; the result carries the post-call state and
the one synchronous invocation `(listener, value)` performed before returning.
The thrown error on an empty reference is the `Except.error` case. -/
def observeE (s : SDK) (reference : String) (lid : Nat) (optDefault : Option JSVal) :
    Except String (SDK × Nat × JSVal) :=
  let normalized := jsTrim reference
  if normalized = "" then .error "observe() requires a non-empty reference string."
  else
    let cs :=
      match lookupA s.bindingChannels normalized with
      | some c => (c, s)
      | none =>
        let vs := resolveVal s normalized optDefault
        ({ listeners := [], lastValue := vs.1 }, vs.2)
    let ch := cs.1
    let ch2 : Channel := { ch with listeners := insertA ch.listeners lid }
    let s2 := { cs.2 with bindingChannels := assocSet cs.2.bindingChannels normalized ch2 }
    .ok (s2, lid, ch.lastValue)

/-- The unsubscribe closure returned by `observe` (source lines 191-200),
with the captured normalized reference passed explicitly. -/
def unsubscribe (s : SDK) (normalized : String) (lid : Nat) : SDK :=
  match lookupA s.bindingChannels normalized with
  | none => s
  | some c =>
    let c2 : Channel := { c with listeners := eraseA c.listeners lid }
    if c2.listeners = [] then
      { s with bindingChannels := assocErase s.bindingChannels normalized }
    else
      { s with bindingChannels := assocSet s.bindingChannels normalized c2 }

/-- The loop body of `#notifyBindings` (source lines 213-231): walk the
channels in order, re-resolve each reference with no default, skip when
`Object.is(lastValue, value)`, otherwise update `lastValue` and notify every
listener.  Returns the updated channel list, final state, and invocation log. -/
def notifyGo (s : SDK) : List (String × Channel) → List (String × Channel) × SDK × List (Nat × JSVal)
  | [] => ([], s, [])
  | (ref, ch) :: rest =>
    let vs := resolveVal s ref none
    if objectIs ch.lastValue vs.1 then
      let r := notifyGo vs.2 rest
      ((ref, ch) :: r.1, r.2.1, r.2.2)
    else
      let ch2 : Channel := { ch with lastValue := vs.1 }
      let r := notifyGo vs.2 rest
      ((ref, ch2) :: r.1, r.2.1, ch.listeners.map (fun l => (l, vs.1)) ++ r.2.2)

/-- `#notifyBindings` (source lines 213-231). -/
def notifyBindings (s : SDK) : SDK × List (Nat × JSVal) :=
  let r := notifyGo s s.bindingChannels
  ({ r.2.1 with bindingChannels := r.1 }, r.2.2)

/-- `#emitContentUpdated` (source lines 233-236): dispatch the DOM event
(tracked by callers that need it) and fan out to the binding registry. -/
def emitContentUpdated (s : SDK) : SDK := (notifyBindings s).1

/-! ### Language resolution (source lines 504-604) -/

/-- Events observable by application code, as dispatched by `#applyLanguage`. -/
inductive Notif where
  | languageChanged (language previous : String)
  | contentUpdated (reason : String)
  deriving DecidableEq

/-- The validation part of `#applyLanguage` (source lines 581-587):
`lookup.get(normalized) || availableLanguages.find(l => l === language)`,
then the `if (!resolved)` falsiness rejection. -/
def resolvedLanguage (s : SDK) (language : String) : Option String :=
  let g := lookupA s.availableLanguageLookup (jsToLower language)
  let f := s.availableLanguages.find? fun l => decide (l = language)
  let r := jsOr g f
  if jsTruthy r then r else none

/-- `#applyLanguage(language, options)` (source lines 580-604), returning the
post-call state and the events dispatched to application code. -/
def applyLanguage (s : SDK) (language : String) (emitEvents : Bool) (reason : String) :
    SDK × List Notif :=
  match resolvedLanguage s language with
  | none => (s, [])
  | some resolved =>
    if s.currentLanguage = resolved ∧ emitEvents then (s, [])
    else
      let s1 := storageSet { s with currentLanguage := resolved } "cmscure_current_language" resolved
      ((emitContentUpdated s1),
       (if emitEvents then [Notif.languageChanged resolved s.currentLanguage] else [])
         ++ [Notif.contentUpdated reason])

/-- `#refreshAutoSubscribedContent` (source lines 606-628), synchronous part:
fire the non-forced re-sync of every subscribed scope (the fetches complete
asynchronously). -/
def refreshAutoSubscribedStarts (s : SDK) : SDK :=
  let s1 := s.autoSubscribedTabs.foldl (fun a t => syncTabStart a t false) s
  let s2 := if s1.autoSubscribedColors then syncColorsStart s1 else s1
  let s3 := if s2.autoSubscribedImages then syncImagesStart s2 else s2
  s.autoSubscribedStores.foldl (fun a i => syncStoreStart a i false) s3

/-- `setLanguage(language)` (source lines 79-82): apply the language with
events enabled, then refresh the subscribed content. -/
def setLanguage (s : SDK) (language : String) : SDK × List Notif :=
  let r := applyLanguage s language true "LanguageChanged"
  (refreshAutoSubscribedStarts r.1, r.2)

/-- The candidate list built by `#pickBrowserLanguage` (source lines 550-569)
from `navigator.languages ++ [navigator.language]`: lowercase forms first,
each followed by its 2-letter base, deduplicated in order. -/
def browserCandidates (navLangs : List String) : List String :=
  navLangs.foldl
    (fun acc lang =>
      if lang = "" then acc
      else
        let lower := jsToLower lang
        let acc1 := if lower ∈ acc then acc else acc ++ [lower]
        let base := String.mk (lower.data.takeWhile fun c => decide (c ≠ '-'))
        if base = "" then acc1
        else if base ∈ acc1 then acc1 else acc1 ++ [base])
    []

/-- `#pickBrowserLanguage` (source lines 545-578). -/
def pickBrowserLanguage (s : SDK) (navLangs : List String) : Option String :=
  (browserCandidates navLangs).findSome? fun candidate =>
    match lookupA s.availableLanguageLookup candidate with
    | some x => some (if x = "" then candidate else x)
    | none => none

/-- Stage 1 of `#resolveInitialLanguage` (source lines 511-514): a stored
language whose lowercase form the lookup knows, `lookup.get(...) || stored`. -/
def rilStored (s : SDK) : Option String :=
  match storageGet s "cmscure_current_language" with
  | some st =>
    if st = "" then none
    else
      match lookupA s.availableLanguageLookup (jsToLower st) with
      | some x => jsOr (some x) (some st)
      | none => none
  | none => none

/-- Stage 2 (source lines 516-521): the configured default language, only
while `resolved` is still falsy. -/
def rilDefault (s : SDK) (r1 : Option String) : Option String :=
  if jsTruthy r1 then r1
  else
    match s.desiredDefaultLanguage with
    | some dd =>
      if dd = "" then r1
      else
        match lookupA s.availableLanguageLookup (jsToLower dd) with
        | some x => jsOr (some x) (some dd)
        | none => r1
    | none => r1

/-- Stage 3 (source lines 523-528): the browser preference probe. -/
def rilBrowser (s : SDK) (navLangs : List String) (r2 : Option String) : Option String :=
  if jsTruthy r2 then r2 else pickBrowserLanguage s navLangs

/-- Stage 4 (source lines 530-532): the `"en"` fallback. -/
def rilEnglish (s : SDK) (r3 : Option String) : Option String :=
  if jsTruthy r3 then r3
  else
    match lookupA s.availableLanguageLookup "en" with
    | some x => jsOr (some x) (some "en")
    | none => r3

/-- Stage 5 (source lines 534-536): the first available entry. -/
def rilFirst (s : SDK) (r4 : Option String) : Option String :=
  if jsTruthy r4 then r4
  else
    match s.availableLanguages with
    | [] => r4
    | l :: _ => some l

/-- `#resolveInitialLanguage` (source lines 504-543): the five-stage priority
chain, then - only when the result is truthy - set the resolved flag, apply
the language with events, and refresh the subscribed content. -/
def resolveInitialLanguage (s : SDK) (navLangs : List String) : SDK × List Notif :=
  if s.autoLanguageResolved then (s, [])
  else
    match rilFirst s (rilEnglish s (rilBrowser s navLangs (rilDefault s (rilStored s)))) with
    | some resolved =>
      if resolved = "" then (s, [])
      else
        let s1 := { s with autoLanguageResolved := true }
        let r := applyLanguage s1 resolved true "InitialLanguageResolved"
        (refreshAutoSubscribedStarts r.1, r.2)
    | none => (s, [])

/-! ### Fetch outcomes and sync completions (source lines 726-904) -/

/-- Outcome of an `await fetch(...)`: a transport error (the promise rejected)
or a response with a status code and a parsed body. -/
inductive Fetch (β : Type) where
  | netError
  | resp (status : Nat) (body : β)

/-- `response.ok`: status in the 200-299 range. -/
def respOk (status : Nat) : Bool := 200 ≤ status ∧ status ≤ 299

/-- A failing fetch in the sense of the error-handling design: a network error
or a non-2xx status other than 404. -/
def fetchFails {β : Type} : Fetch β → Prop
  | .netError => True
  | .resp status _ => respOk status = false ∧ status ≠ 404

/-- Body of a successful tab fetch: `data.keys` as a list of
`(key, values)` pairs (`{keys: [{key, values: {lang: str}}]}`). -/
abbrev TabBody := List (String × List (String × String))

/-- `const keyMap = {}; (data.keys || []).forEach(item => keyMap[item.key] = item.values)`
(source lines 753-754). -/
def buildKeyMap (body : TabBody) : TabMap :=
  body.foldl (fun m kv => assocSet m kv.1 kv.2) []

/-- The part of `#syncTab` that runs once the response arrives (source lines
747-766), up to but excluding the `finally`.  `throw new Error(...)` on a
non-ok status and the rejection of `fetch` itself are the `.error` cases; the
404 early return and the success path are `.ok`. -/
def syncTabFetchPhase (s : SDK) (tab : String) (result : Fetch TabBody) : Except String SDK :=
  match result with
  | .netError => .error "network error"
  | .resp status body =>
    if status = 404 then .ok s
    else if respOk status = false then .error "HTTP error"
    else
      let s1 := { s with cache := assocSet s.cache tab (buildKeyMap body)
                         knownTabs := insertA s.knownTabs tab }
      .ok (emitContentUpdated s1)

/-- Completion of an outstanding `#syncTab` fetch: the instrumentation entry is
consumed, the `catch` swallows any error from the fetch phase (the cache slot
keeps its previous value), and the `finally` clears the in-flight marker. -/
def syncTabComplete (s : SDK) (tab : String) (result : Fetch TabBody) : SDK :=
  let s0 := { s with pendingTabFetches := eraseA s.pendingTabFetches tab }
  let s1 :=
    match syncTabFetchPhase s0 tab result with
    | .ok t => t
    | .error _ => s0
  { s1 with syncingTabs := eraseA s1.syncingTabs tab }

/-- A whole `#syncTab(tab, options)` call whose fetch resolves with `result`
before any other code runs. -/
def syncTabFull (s : SDK) (tab : String) (force : Bool) (result : Fetch TabBody) : SDK :=
  if s.configSet = false then s
  else if tab ∈ s.syncingTabs ∧ force = false then s
  else syncTabComplete (syncTabStart s tab force) tab result

/-- Body of a successful colors fetch: `[{key, value}]`. -/
abbrev ColorBody := List (String × String)

/-- `colorMap[item.key] = { hex: item.value }` (source line 846). -/
def buildColorMap (body : ColorBody) : List (String × ColorEntry) :=
  body.foldl (fun m kv => assocSet m kv.1 (ColorEntry.cobj (some kv.2) none none)) []

/-- Post-response part of `#syncColors` (source lines 841-859). -/
def syncColorsFetchPhase (s : SDK) (result : Fetch ColorBody) : Except String SDK :=
  match result with
  | .netError => .error "network error"
  | .resp status body =>
    if status = 404 then .ok s
    else if respOk status = false then .error "HTTP error"
    else
      let s1 := { s with colorsCache := some (buildColorMap body)
                         autoSubscribedColors := true }
      .ok (emitContentUpdated s1)

/-- Completion of an outstanding `#syncColors` fetch. -/
def syncColorsComplete (s : SDK) (result : Fetch ColorBody) : SDK :=
  let s1 :=
    match syncColorsFetchPhase s result with
    | .ok t => t
    | .error _ => s
  { s1 with colorsSyncInFlight := false }

/-- A whole `#syncColors()` call whose fetch resolves with `result`. -/
def syncColorsFull (s : SDK) (result : Fetch ColorBody) : SDK :=
  if s.configSet = false then s
  else if s.colorsSyncInFlight then s
  else syncColorsComplete (syncColorsStart s) result

/-- Body of a successful images fetch: `[{key, url}]`. -/
abbrev ImageBody := List (String × String)

/-- `imageMap[item.key] = { url: item.url }` (source line 799). -/
def buildImageMap (body : ImageBody) : List (String × String) :=
  body.foldl (fun m kv => assocSet m kv.1 kv.2) []

/-- Post-response part of `#syncImages` (source lines 794-813); the browser
image prefetch is a no-op on the state. -/
def syncImagesFetchPhase (s : SDK) (result : Fetch ImageBody) : Except String SDK :=
  match result with
  | .netError => .error "network error"
  | .resp status body =>
    if status = 404 then .ok s
    else if respOk status = false then .error "HTTP error"
    else
      let s1 := { s with imagesCache := some (buildImageMap body)
                         autoSubscribedImages := true }
      .ok (emitContentUpdated s1)

/-- Completion of an outstanding `#syncImages` fetch. -/
def syncImagesComplete (s : SDK) (result : Fetch ImageBody) : SDK :=
  let s1 :=
    match syncImagesFetchPhase s result with
    | .ok t => t
    | .error _ => s
  { s1 with imagesSyncInFlight := false }

/-- A whole `#syncImages()` call whose fetch resolves with `result`. -/
def syncImagesFull (s : SDK) (result : Fetch ImageBody) : SDK :=
  if s.configSet = false then s
  else if s.imagesSyncInFlight then s
  else syncImagesComplete (syncImagesStart s) result

/-- Body of a successful store fetch: `data.items`, opaque records. -/
abbrev StoreBody := List String

/-- Post-response part of `#syncStore` (source lines 887-897):
`dataStoreCache[id] = data.items || []` stores a fresh array. -/
def syncStoreFetchPhase (s : SDK) (ident : String) (result : Fetch StoreBody) : Except String SDK :=
  match result with
  | .netError => .error "network error"
  | .resp status body =>
    if status = 404 then .ok s
    else if respOk status = false then .error "HTTP error"
    else
      let s1 := { s with dataStoreCache := assocSet s.dataStoreCache ident (s.nextId, body)
                         nextId := s.nextId + 1
                         knownStores := insertA s.knownStores ident
                         autoSubscribedStores := insertA s.autoSubscribedStores ident }
      .ok (emitContentUpdated s1)

/-- Completion of an outstanding `#syncStore` fetch. -/
def syncStoreComplete (s : SDK) (ident : String) (result : Fetch StoreBody) : SDK :=
  let s1 :=
    match syncStoreFetchPhase s ident result with
    | .ok t => t
    | .error _ => s
  { s1 with syncingStores := eraseA s1.syncingStores ident }

/-- A whole `#syncStore(ident, options)` call whose fetch resolves with
`result`. -/
def syncStoreFull (s : SDK) (ident : String) (force : Bool) (result : Fetch StoreBody) : SDK :=
  if s.configSet = false then s
  else if ident ∈ s.syncingStores ∧ force = false then s
  else syncStoreComplete (syncStoreStart s ident force) ident result

/-- A sync wave over a list of tabs, as fired concurrently by
`#authenticateAndSync` / `#refreshAutoSubscribedContent`: in the JS event loop
every call runs its synchronous prefix (marking the scope in flight and
issuing the request) before any response is processed, then the completions
run as the responses arrive. -/
def syncTabWave (s : SDK) (tabs : List String) (oracle : String → Fetch TabBody) : SDK :=
  let s1 := tabs.foldl (fun a t => syncTabStart a t false) s
  tabs.foldl (fun a t => syncTabComplete a t (oracle t)) s1

/-! ### Authentication (source lines 660-724) -/

/-- The relevant fields of a successful `/api/sdk/auth` response body. -/
structure AuthPayload where
  token : String
  availableLanguages : Option (List String)
  tabs : List String
  stores : List String

/-- The state update performed by `#authenticateAndSync` on a successful
authentication response (source lines 688-699): token, the
non-empty-or-default language list, the rebuilt lookup, and the known sets.
The ensuing content syncs and language resolution are composed separately. -/
def authApply (s : SDK) (p : AuthPayload) : SDK :=
  let langs :=
    match p.availableLanguages with
    | some ls => if ls.isEmpty then ["en"] else ls
    | none => ["en"]
  let s1 := { s with authToken := some p.token
                     availableLanguages := langs
                     availableLanguageLookup := buildLookup langs
                     knownTabs := p.tabs
                     knownStores := p.stores }
  if p.token = "" then s1 else storageSet s1 "cmscure_auth_token" p.token

/-! ### Realtime handlers (source lines 409-502) -/

/-- A re-sync triggered by an inbound realtime notification, with its force
flag (the colors/images syncs take no force option in the source). -/
inductive SyncAction where
  | tabSync (name : String) (force : Bool)
  | colorsSync
  | imagesSync
  | storeSync (name : String) (force : Bool)
  deriving DecidableEq

/-- `#handleSocketTranslationUpdate` (source lines 468-502), as the list of
sync calls it makes.  `none` models a payload without a string `screenName`
(malformed, dropped); `""` is also falsy and dropped. -/
def handleSocketTranslationUpdate (s : SDK) (screenName : Option String) : List SyncAction :=
  match screenName with
  | none => []
  | some name =>
    if name = "" then []
    else if name = "__ALL__" then
      (s.autoSubscribedTabs.map fun t => SyncAction.tabSync t true)
        ++ (if s.autoSubscribedColors then [SyncAction.colorsSync] else [])
        ++ (if s.autoSubscribedImages then [SyncAction.imagesSync] else [])
        ++ (s.autoSubscribedStores.map fun st => SyncAction.storeSync st true)
    else if name = "__colors__" then [SyncAction.colorsSync]
    else if name = "__images__" then [SyncAction.imagesSync]
    else if name ∈ s.autoSubscribedTabs ∨ name ∈ s.knownTabs then [SyncAction.tabSync name true]
    else []

/-- The `dataStoreUpdated` socket handler (source lines 442-448): extract
`storeApiIdentifier` and, when truthy, force a re-sync of that store
unconditionally. -/
def onDataStoreUpdated (_s : SDK) (storeApiIdentifier : Option String) : List SyncAction :=
  match storeApiIdentifier with
  | none => []
  | some ident => if ident = "" then [] else [SyncAction.storeSync ident true]

/-- The `imagesUpdated` socket handler (source lines 450-452): re-sync images
unconditionally. -/
def onImagesUpdated (_s : SDK) : List SyncAction := [SyncAction.imagesSync]

/-! ### Lemmas about the list helpers -/

theorem lookupA_assocSet_self {κ α : Type} [DecidableEq κ] (m : List (κ × α)) (k : κ) (v : α) :
    lookupA (assocSet m k v) k = some v := by
  induction m with
  | nil => simp [assocSet, lookupA]
  | cons p rest ih =>
    obtain ⟨k', v'⟩ := p
    by_cases h : k' = k
    · simp [assocSet, h, lookupA]
    · simp [assocSet, h, lookupA, ih]

theorem lookupA_assocSet_ne {κ α : Type} [DecidableEq κ] (m : List (κ × α)) (k k' : κ) (v : α)
    (h : k' ≠ k) : lookupA (assocSet m k v) k' = lookupA m k' := by
  induction m with
  | nil => simp [assocSet, lookupA, Ne.symm h]
  | cons p rest ih =>
    obtain ⟨k0, v0⟩ := p
    by_cases h0 : k0 = k
    · subst h0
      simp [assocSet, lookupA, Ne.symm h]
    · simp only [assocSet, if_neg h0, lookupA]
      by_cases h1 : k0 = k'
      · simp [h1]
      · simp [h1, ih]

theorem mem_insertA {α : Type} [DecidableEq α] (l : List α) (x y : α) :
    y ∈ insertA l x ↔ y ∈ l ∨ y = x := by
  unfold insertA
  by_cases h : x ∈ l
  · simp only [if_pos h]
    constructor
    · exact Or.inl
    · rintro (hy | rfl)
      · exact hy
      · exact h
  · simp [if_neg h]

theorem self_mem_insertA {α : Type} [DecidableEq α] (l : List α) (x : α) :
    x ∈ insertA l x := (mem_insertA l x x).2 (Or.inr rfl)

theorem mem_eraseA {α : Type} [DecidableEq α] (l : List α) (x y : α) (h : y ∈ eraseA l x) :
    y ∈ l := by
  induction l with
  | nil => simp [eraseA] at h
  | cons a rest ih =>
    by_cases ha : a = x
    · simp only [eraseA, if_pos ha] at h
      exact List.mem_cons_of_mem _ h
    · simp only [eraseA, if_neg ha] at h
      rcases List.mem_cons.1 h with h1 | h1
      · exact h1 ▸ List.mem_cons_self _ _
      · exact List.mem_cons_of_mem _ (ih h1)

theorem mem_eraseA_of_ne {α : Type} [DecidableEq α] (l : List α) (x y : α) (hne : y ≠ x)
    (h : y ∈ l) : y ∈ eraseA l x := by
  induction l with
  | nil => simp [eraseA] at h
  | cons a rest ih =>
    by_cases ha : a = x
    · simp only [eraseA, if_pos ha]
      rcases List.mem_cons.1 h with h1 | h1
      · exact absurd (h1.trans ha) hne
      · exact h1
    · simp only [eraseA, if_neg ha]
      rcases List.mem_cons.1 h with h1 | h1
      · exact h1 ▸ List.mem_cons_self _ _
      · exact List.mem_cons_of_mem _ (ih h1)

theorem countA_pos_of_mem {α : Type} [DecidableEq α] (l : List α) (x : α) (h : x ∈ l) :
    1 ≤ countA l x := by
  induction l with
  | nil => simp at h
  | cons a rest ih =>
    rcases List.mem_cons.1 h with h1 | h1
    · simp [countA, h1.symm]
    · have := ih h1
      simp only [countA]
      omega

theorem countA_eraseA_self {α : Type} [DecidableEq α] (l : List α) (x : α) (h : x ∈ l) :
    countA (eraseA l x) x = countA l x - 1 := by
  induction l with
  | nil => simp at h
  | cons a rest ih =>
    by_cases ha : a = x
    · simp [eraseA, countA, ha]
    · have hx : x ∈ rest := by
        rcases List.mem_cons.1 h with h1 | h1
        · exact absurd h1.symm ha
        · exact h1
      have hpos := countA_pos_of_mem rest x hx
      simp only [eraseA, if_neg ha, countA, ih hx]
      omega

theorem countA_eraseA_ne {α : Type} [DecidableEq α] (l : List α) (x y : α) (hne : y ≠ x) :
    countA (eraseA l x) y = countA l y := by
  induction l with
  | nil => simp [eraseA]
  | cons a rest ih =>
    by_cases ha : a = x
    · subst ha
      simp [eraseA, countA, Ne.symm hne]
    · simp [eraseA, if_neg ha, countA, ih]

theorem countA_eq_zero_of_not_mem {α : Type} [DecidableEq α] (l : List α) (x : α) (h : x ∉ l) :
    countA l x = 0 := by
  induction l with
  | nil => simp [countA]
  | cons a rest ih =>
    have hax : a ≠ x := fun hh => h (hh ▸ List.mem_cons_self _ _)
    have : x ∉ rest := fun hh => h (List.mem_cons_of_mem _ hh)
    simp [countA, hax, ih this]

/-! ### Quiet state changes

The public getters, the reference resolver and the binding fan-out may touch
the subscription registry, the in-flight markers and the allocation counter,
but never the content-bearing fields.  `Quiet s s'` records this. -/

/-- All content-bearing fields of `s'` agree with `s`; the allocation counter
may only grow. -/
def Quiet (s s' : SDK) : Prop :=
  s'.configSet = s.configSet ∧
  s'.authToken = s.authToken ∧
  s'.availableLanguages = s.availableLanguages ∧
  s'.availableLanguageLookup = s.availableLanguageLookup ∧
  s'.currentLanguage = s.currentLanguage ∧
  s'.cache = s.cache ∧
  s'.colorsCache = s.colorsCache ∧
  s'.imagesCache = s.imagesCache ∧
  s'.dataStoreCache = s.dataStoreCache ∧
  s'.knownTabs = s.knownTabs ∧
  s'.knownStores = s.knownStores ∧
  s'.autoLanguageResolved = s.autoLanguageResolved ∧
  s'.desiredDefaultLanguage = s.desiredDefaultLanguage ∧
  s'.storage = s.storage ∧
  s.nextId ≤ s'.nextId

/-- Quiet and additionally leaving the binding channels untouched. -/
def QuietB (s s' : SDK) : Prop := Quiet s s' ∧ s'.bindingChannels = s.bindingChannels

theorem quiet_rfl (s : SDK) : Quiet s s := by simp [Quiet]

theorem quietB_rfl (s : SDK) : QuietB s s := ⟨quiet_rfl s, rfl⟩

theorem quiet_trans {a b c : SDK} (h1 : Quiet a b) (h2 : Quiet b c) : Quiet a c := by
  obtain ⟨x1, x2, x3, x4, x5, x6, x7, x8, x9, x10, x11, x12, x13, x14, x15⟩ := h1
  obtain ⟨y1, y2, y3, y4, y5, y6, y7, y8, y9, y10, y11, y12, y13, y14, y15⟩ := h2
  exact ⟨y1.trans x1, y2.trans x2, y3.trans x3, y4.trans x4, y5.trans x5, y6.trans x6,
    y7.trans x7, y8.trans x8, y9.trans x9, y10.trans x10, y11.trans x11, y12.trans x12,
    y13.trans x13, y14.trans x14, le_trans x15 y15⟩

theorem quietB_trans {a b c : SDK} (h1 : QuietB a b) (h2 : QuietB b c) : QuietB a c :=
  ⟨quiet_trans h1.1 h2.1, h2.2.trans h1.2⟩

theorem syncTabStart_quietB (s : SDK) (tab : String) (force : Bool) :
    QuietB s (syncTabStart s tab force) := by
  unfold syncTabStart
  split
  · exact quietB_rfl s
  split
  · exact quietB_rfl s
  · simp [QuietB, Quiet]

theorem syncColorsStart_quietB (s : SDK) : QuietB s (syncColorsStart s) := by
  unfold syncColorsStart
  split
  · exact quietB_rfl s
  split
  · exact quietB_rfl s
  · simp [QuietB, Quiet]

theorem syncImagesStart_quietB (s : SDK) : QuietB s (syncImagesStart s) := by
  unfold syncImagesStart
  split
  · exact quietB_rfl s
  split
  · exact quietB_rfl s
  · simp [QuietB, Quiet]

theorem syncStoreStart_quietB (s : SDK) (ident : String) (force : Bool) :
    QuietB s (syncStoreStart s ident force) := by
  unfold syncStoreStart
  split
  · exact quietB_rfl s
  split
  · exact quietB_rfl s
  · simp [QuietB, Quiet]

theorem ensureTabSubscription_quietB (s : SDK) (tab : String) :
    QuietB s (ensureTabSubscription s tab) := by
  unfold ensureTabSubscription
  split
  · exact quietB_rfl s
  split
  · exact quietB_rfl s
  · exact quietB_trans (by simp [QuietB, Quiet]) (syncTabStart_quietB _ tab false)

theorem ensureColorsSubscription_quietB (s : SDK) :
    QuietB s (ensureColorsSubscription s) := by
  unfold ensureColorsSubscription
  split
  · exact quietB_rfl s
  · exact quietB_trans (by simp [QuietB, Quiet]) (syncColorsStart_quietB _)

theorem ensureImagesSubscription_quietB (s : SDK) :
    QuietB s (ensureImagesSubscription s) := by
  unfold ensureImagesSubscription
  split
  · exact quietB_rfl s
  · exact quietB_trans (by simp [QuietB, Quiet]) (syncImagesStart_quietB _)

theorem ensureStoreSubscription_quietB (s : SDK) (ident : String) :
    QuietB s (ensureStoreSubscription s ident) := by
  unfold ensureStoreSubscription
  split
  · exact quietB_rfl s
  split
  · exact quietB_rfl s
  · exact quietB_trans (by simp [QuietB, Quiet]) (syncStoreStart_quietB _ ident false)

theorem translationGet_quietB (s : SDK) (key tab : String) (d : Option String) :
    QuietB s (translationGet s key tab d).2 := by
  have h : (translationGet s key tab d).2 =
      (if jsTruthy (translationLookup (ensureTabSubscription s tab) tab key)
       then ensureTabSubscription s tab
       else syncTabStart (ensureTabSubscription s tab) tab false) := rfl
  rw [h]
  split
  · exact ensureTabSubscription_quietB s tab
  · exact quietB_trans (ensureTabSubscription_quietB s tab) (syncTabStart_quietB _ tab false)

theorem colorGet_quietB (s : SDK) (key : String) (d : JSVal) :
    QuietB s (colorGet s key d).2 := by
  have h : (colorGet s key d).2 =
      (if jsTruthy (colorValue ((ensureColorsSubscription s).colorsCache.bind
          fun m => lookupA m key))
       then ensureColorsSubscription s
       else syncColorsStart (ensureColorsSubscription s)) := rfl
  rw [h]
  split
  · exact ensureColorsSubscription_quietB s
  · exact quietB_trans (ensureColorsSubscription_quietB s) (syncColorsStart_quietB _)

theorem imageGet_quietB (s : SDK) (key : String) (d : JSVal) :
    QuietB s (imageGet s key d).2 := by
  have h : (imageGet s key d).2 =
      (if jsTruthy (jsOr ((ensureImagesSubscription s).imagesCache.bind
          fun m => lookupA m key) none)
       then ensureImagesSubscription s
       else syncImagesStart (ensureImagesSubscription s)) := rfl
  rw [h]
  split
  · exact ensureImagesSubscription_quietB s
  · exact quietB_trans (ensureImagesSubscription_quietB s) (syncImagesStart_quietB _)

theorem dataStoreGet_quietB (s : SDK) (ident : String) (fb : JSVal) :
    QuietB s (dataStoreGet s ident fb).2 := by
  have h : (dataStoreGet s ident fb).2 = ensureStoreSubscription s ident := rfl
  rw [h]
  exact ensureStoreSubscription_quietB s ident

theorem resolveVal_quietB (s : SDK) (reference : String) (d : Option JSVal) :
    QuietB s (resolveVal s reference d).2 := by
  unfold resolveVal
  cases parseRef reference with
  | invalid => exact quietB_rfl s
  | colorRef key => exact colorGet_quietB s key _
  | imageRef key => exact imageGet_quietB s key _
  | storeRef ident =>
    have hstep : QuietB s { s with nextId := s.nextId + 1 } := by simp [QuietB, Quiet]
    cases d with
    | none => exact quietB_trans hstep (dataStoreGet_quietB _ ident _)
    | some v =>
      cases v with
      | vnull => exact quietB_trans hstep (dataStoreGet_quietB _ ident _)
      | vstr x => exact quietB_trans hstep (dataStoreGet_quietB _ ident _)
      | varr aid items => exact dataStoreGet_quietB s ident _
  | metaLanguage => exact quietB_rfl s
  | metaLanguages => exact ⟨by simp [Quiet, getAvailableLanguagesV], rfl⟩
  | metaAuthToken => exact quietB_rfl s
  | metaOther => exact quietB_rfl s
  | tabEmpty pfx => exact quietB_rfl s
  | tabKey tab key =>
    cases d with
    | none => exact translationGet_quietB s key tab none
    | some v =>
      cases v with
      | vnull => exact translationGet_quietB s key tab none
      | vstr x => exact translationGet_quietB s key tab (some x)
      | varr aid items => exact translationGet_quietB s key tab none

theorem notifyGo_quiet (chs : List (String × Channel)) (s : SDK) :
    Quiet s (notifyGo s chs).2.1 := by
  induction chs generalizing s with
  | nil => exact quiet_rfl s
  | cons p rest ih =>
    obtain ⟨ref, ch⟩ := p
    have hres := (resolveVal_quietB s ref none).1
    have h : (notifyGo s ((ref, ch) :: rest)).2.1 =
        (notifyGo (resolveVal s ref none).2 rest).2.1 := by
      conv_lhs => rw [notifyGo]
      dsimp only
      split <;> rfl
    rw [h]
    exact quiet_trans hres (ih _)

theorem notifyBindings_quiet (s : SDK) : Quiet s (notifyBindings s).1 := by
  have h := notifyGo_quiet s.bindingChannels s
  unfold notifyBindings
  obtain ⟨x1, x2, x3, x4, x5, x6, x7, x8, x9, x10, x11, x12, x13, x14, x15⟩ := h
  exact ⟨x1, x2, x3, x4, x5, x6, x7, x8, x9, x10, x11, x12, x13, x14, x15⟩

theorem emitContentUpdated_quiet (s : SDK) : Quiet s (emitContentUpdated s) :=
  notifyBindings_quiet s

/-! ### Language application lemmas -/

theorem foldl_syncTabStart_quietB (l : List String) (s : SDK) :
    QuietB s (l.foldl (fun a t => syncTabStart a t false) s) := by
  induction l generalizing s with
  | nil => exact quietB_rfl s
  | cons t rest ih =>
    exact quietB_trans (syncTabStart_quietB s t false) (ih _)

theorem foldl_syncStoreStart_quietB (l : List String) (s : SDK) :
    QuietB s (l.foldl (fun a i => syncStoreStart a i false) s) := by
  induction l generalizing s with
  | nil => exact quietB_rfl s
  | cons t rest ih =>
    exact quietB_trans (syncStoreStart_quietB s t false) (ih _)

theorem refreshAutoSubscribedStarts_quietB (s : SDK) :
    QuietB s (refreshAutoSubscribedStarts s) := by
  unfold refreshAutoSubscribedStarts
  dsimp only
  have h1 := foldl_syncTabStart_quietB s.autoSubscribedTabs s
  revert h1
  generalize List.foldl (fun a t => syncTabStart a t false) s s.autoSubscribedTabs = s1
  intro h1
  have h2 : QuietB s1 (if s1.autoSubscribedColors = true then syncColorsStart s1 else s1) := by
    split
    · exact syncColorsStart_quietB s1
    · exact quietB_rfl s1
  revert h2
  generalize (if s1.autoSubscribedColors = true then syncColorsStart s1 else s1) = s2
  intro h2
  have h3 : QuietB s2 (if s2.autoSubscribedImages = true then syncImagesStart s2 else s2) := by
    split
    · exact syncImagesStart_quietB s2
    · exact quietB_rfl s2
  revert h3
  generalize (if s2.autoSubscribedImages = true then syncImagesStart s2 else s2) = s3
  intro h3
  exact quietB_trans h1 (quietB_trans h2 (quietB_trans h3 (foldl_syncStoreStart_quietB _ s3)))

/-- `resolvedLanguage` reads only the lookup map and the language list. -/
theorem resolvedLanguage_congr {s s' : SDK}
    (h1 : s'.availableLanguageLookup = s.availableLanguageLookup)
    (h2 : s'.availableLanguages = s.availableLanguages) (language : String) :
    resolvedLanguage s' language = resolvedLanguage s language := by
  unfold resolvedLanguage
  rw [h1, h2]

theorem applyLanguage_of_none {s : SDK} {language : String} (e : Bool) (r : String)
    (h : resolvedLanguage s language = none) : applyLanguage s language e r = (s, []) := by
  unfold applyLanguage
  rw [h]

theorem applyLanguage_of_same {s : SDK} {language x : String} (r : String)
    (h : resolvedLanguage s language = some x) (hc : s.currentLanguage = x) :
    applyLanguage s language true r = (s, []) := by
  unfold applyLanguage
  rw [h]
  simp [hc]

theorem applyLanguage_of_change {s : SDK} {language x : String} (r : String)
    (h : resolvedLanguage s language = some x) (hc : s.currentLanguage ≠ x) :
    applyLanguage s language true r =
      (emitContentUpdated (storageSet { s with currentLanguage := x }
        "cmscure_current_language" x),
       [Notif.languageChanged x s.currentLanguage, Notif.contentUpdated r]) := by
  unfold applyLanguage
  rw [h]
  simp [hc]

theorem applyLanguage_of_some (s : SDK) (language x : String) (e : Bool) (r : String)
    (h : resolvedLanguage s language = some x) :
    applyLanguage s language e r =
      if s.currentLanguage = x ∧ e = true then (s, [])
      else
        (emitContentUpdated (storageSet { s with currentLanguage := x }
          "cmscure_current_language" x),
         (if e = true then [Notif.languageChanged x s.currentLanguage] else [])
           ++ [Notif.contentUpdated r]) := by
  unfold applyLanguage
  rw [h]

theorem storageSet_fields (s : SDK) (k v : String) :
    (storageSet s k v).availableLanguageLookup = s.availableLanguageLookup ∧
    (storageSet s k v).availableLanguages = s.availableLanguages ∧
    (storageSet s k v).currentLanguage = s.currentLanguage := by
  simp [storageSet]

/-- Fields of the state produced by `#applyLanguage`: the lookup map and the
language list are never modified, and the current language either stays or
becomes the resolved value. -/
theorem applyLanguage_fields (s : SDK) (language : String) (r : String) :
    (applyLanguage s language true r).1.availableLanguageLookup = s.availableLanguageLookup ∧
    (applyLanguage s language true r).1.availableLanguages = s.availableLanguages := by
  cases h : resolvedLanguage s language with
  | none => rw [applyLanguage_of_none true r h]; exact ⟨rfl, rfl⟩
  | some x =>
    by_cases hc : s.currentLanguage = x
    · rw [applyLanguage_of_same r h hc]; exact ⟨rfl, rfl⟩
    · rw [applyLanguage_of_change r h hc]
      have hq := emitContentUpdated_quiet
        (storageSet { s with currentLanguage := x } "cmscure_current_language" x)
      refine ⟨hq.2.2.2.1.trans ?_, hq.2.2.1.trans ?_⟩ <;> simp [storageSet]

/-- Claim C2.  `setLanguage` is idempotent with respect to notifications: after
any `setLanguage(L)` call, a second `setLanguage(L)` dispatches no
`languageChanged` and no `contentUpdated` event, and its `#applyLanguage` step
returns the state unchanged (it takes the `Language unchanged. Skipping update.`
or the `not available` early return), so no listener can be invoked by it.
This holds for every starting state, which in particular covers the claim's
case of `L` equal to the currently active language. -/
theorem claim_C2_setLanguage_idempotent (s : SDK) (language : String) :
    (setLanguage (setLanguage s language).1 language).2 = [] ∧
    applyLanguage (setLanguage s language).1 language true "LanguageChanged" =
      ((setLanguage s language).1, []) := by
  have key : ∀ t : SDK, t = (setLanguage s language).1 →
      applyLanguage t language true "LanguageChanged" = (t, []) := by
    intro t ht
    have hrq := refreshAutoSubscribedStarts_quietB
      (applyLanguage s language true "LanguageChanged").1
    have htl : t.availableLanguageLookup =
        (applyLanguage s language true "LanguageChanged").1.availableLanguageLookup := by
      rw [ht]; exact hrq.1.2.2.2.1
    have htg : t.availableLanguages =
        (applyLanguage s language true "LanguageChanged").1.availableLanguages := by
      rw [ht]; exact hrq.1.2.2.1
    have htc : t.currentLanguage =
        (applyLanguage s language true "LanguageChanged").1.currentLanguage := by
      rw [ht]; exact hrq.1.2.2.2.2.1
    have happ := applyLanguage_fields s language "LanguageChanged"
    have hres : resolvedLanguage t language = resolvedLanguage s language := by
      refine resolvedLanguage_congr ?_ ?_ language
      · exact htl.trans happ.1
      · exact htg.trans happ.2
    cases h : resolvedLanguage s language with
    | none => exact applyLanguage_of_none true "LanguageChanged" (hres.trans h)
    | some x =>
      by_cases hc : s.currentLanguage = x
      · have h1 : (applyLanguage s language true "LanguageChanged").1 = s := by
          rw [applyLanguage_of_same "LanguageChanged" h hc]
        refine applyLanguage_of_same "LanguageChanged" (hres.trans h) ?_
        rw [htc, h1, hc]
      · have h1 := applyLanguage_of_change "LanguageChanged" h hc
        refine applyLanguage_of_same "LanguageChanged" (hres.trans h) ?_
        rw [htc, h1]
        have hq := emitContentUpdated_quiet
          (storageSet { s with currentLanguage := x } "cmscure_current_language" x)
        exact hq.2.2.2.2.1.trans (by simp [storageSet])
  have h2 := key (setLanguage s language).1 rfl
  constructor
  · show (applyLanguage (setLanguage s language).1 language true "LanguageChanged").2 = []
    rw [h2]
  · exact h2

/-! ### Claim C1: realtime scope filtering -/

/-- Claim C1 counterexample.  The claim states that a `__colors__` sentinel
re-syncs colors only when the colors-subscribed flag is set, that
`imagesUpdated`/`__images__` re-sync images only when the images-subscribed
flag is set, and that a `dataStoreUpdated` event re-syncs a store only when it
is known or auto-subscribed.  In the freshly constructed state every flag is
false and every set empty, yet all three handlers fire the re-sync anyway:
only the concrete-tab-name case performs a membership check (source lines
442-452 and 489-497 have no such check). -/
theorem claim_C1_counterexample :
    initSDK.autoSubscribedColors = false ∧
    handleSocketTranslationUpdate initSDK (some "__colors__") = [SyncAction.colorsSync] ∧
    initSDK.autoSubscribedImages = false ∧
    handleSocketTranslationUpdate initSDK (some "__images__") = [SyncAction.imagesSync] ∧
    ¬("books" ∈ initSDK.knownStores ∨ "books" ∈ initSDK.autoSubscribedStores) ∧
    onDataStoreUpdated initSDK (some "books") = [SyncAction.storeSync "books" true] := by
  decide

/-- Claim C1 (amended).  Only a concrete tab name in a `translationsUpdated`
notification is filtered against the known/auto-subscribed sets; the
`__colors__` and `__images__` sentinels, a `dataStoreUpdated` event with a
non-empty store identifier, and an `imagesUpdated` event all trigger their
re-sync unconditionally, regardless of the subscription flags and sets. -/
theorem claim_C1_amended (s : SDK) (name ident : String)
    (hne : name ≠ "") (hall : name ≠ "__ALL__") (hcol : name ≠ "__colors__")
    (himg : name ≠ "__images__") (hid : ident ≠ "") :
    (handleSocketTranslationUpdate s (some name) =
      if name ∈ s.autoSubscribedTabs ∨ name ∈ s.knownTabs
      then [SyncAction.tabSync name true] else []) ∧
    handleSocketTranslationUpdate s (some "__colors__") = [SyncAction.colorsSync] ∧
    handleSocketTranslationUpdate s (some "__images__") = [SyncAction.imagesSync] ∧
    onDataStoreUpdated s (some ident) = [SyncAction.storeSync ident true] ∧
    onImagesUpdated s = [SyncAction.imagesSync] := by
  refine ⟨?_, rfl, rfl, ?_, rfl⟩
  · unfold handleSocketTranslationUpdate
    simp [hne, hall, hcol, himg]
  · unfold onDataStoreUpdated
    simp [hid]

/-- Witness for claim C1 (amended) at concrete inputs: an unknown tab name is
dropped, a known tab name is re-synced, a store identifier is re-synced even
though no store is known or subscribed. -/
theorem claim_C1_witness :
    handleSocketTranslationUpdate initSDK (some "home") = [] ∧
    handleSocketTranslationUpdate { initSDK with knownTabs := ["home"] } (some "home")
      = [SyncAction.tabSync "home" true] ∧
    onDataStoreUpdated initSDK (some "books") = [SyncAction.storeSync "books" true] := by
  have h1 := claim_C1_amended initSDK "home" "books"
    (by decide) (by decide) (by decide) (by decide) (by decide)
  have h2 := claim_C1_amended { initSDK with knownTabs := ["home"] } "home" "books"
    (by decide) (by decide) (by decide) (by decide) (by decide)
  refine ⟨?_, ?_, h1.2.2.2.1⟩
  · rw [h1.1]; decide
  · rw [h2.1]; decide

/-! ### Claim C9: cached empty-string translations -/

/-- A configured state with a cached empty string for `home.title` in the
current language, the tab already auto-subscribed. -/
def emptyStringState : SDK :=
  { initSDK with
    configSet := true
    cache := [("home", [("title", [("en", "")])])]
    autoSubscribedTabs := ["home"] }

/-- Claim C9 counterexample.  The claim states that when the cached value for
the current language is the empty string, `translation` returns the supplied
default (or the bracket fallback).  It does not: `value ?? defaultValue ?? ...`
only replaces `null`/`undefined`, so the cached `""` is returned as-is even
though a default was supplied. -/
theorem claim_C9_counterexample :
    translationLookup emptyStringState "home" "title" = some "" ∧
    (translationGet emptyStringState "title" "home" (some "fallback")).1 = "" ∧
    ("" : String) ≠ "fallback" ∧ ("" : String) ≠ "[home:title]" := by
  decide

/-- Claim C9 (amended).  When the cached value for the current language is the
empty string, `translation` returns that empty string (never the supplied
default or the bracket fallback, since `??` only replaces `null`/`undefined`),
while the `!value` falsiness test still triggers the background re-fetch of
the tab exactly as for a missing key. -/
theorem claim_C9_amended (s : SDK) (key tab : String) (d : Option String)
    (hconf : s.configSet = true) (hsub : tab ∈ s.autoSubscribedTabs)
    (hnotsync : tab ∉ s.syncingTabs)
    (hcached : translationLookup s tab key = some "") :
    (translationGet s key tab d).1 = "" ∧
    tab ∈ (translationGet s key tab d).2.syncingTabs ∧
    countA (translationGet s key tab d).2.pendingTabFetches tab
      = countA s.pendingTabFetches tab + 1 := by
  have hens : ensureTabSubscription s tab = s := by
    unfold ensureTabSubscription
    by_cases h0 : tab = ""
    · simp [h0]
    · simp [h0, hsub]
  have heq : translationGet s key tab d = ("", syncTabStart s tab false) := by
    unfold translationGet
    dsimp only
    rw [hens, hcached]
    simp [jsTruthy]
  have hstart : syncTabStart s tab false =
      { s with syncingTabs := insertA s.syncingTabs tab
               pendingTabFetches := tab :: s.pendingTabFetches } := by
    unfold syncTabStart
    rw [hconf]
    simp [hnotsync]
  rw [heq, hstart]
  refine ⟨rfl, self_mem_insertA _ _, ?_⟩
  simp [countA]
  omega

/-- Witness for claim C9 (amended) at the concrete state. -/
theorem claim_C9_witness :
    emptyStringState.configSet = true ∧
    "home" ∈ emptyStringState.autoSubscribedTabs ∧
    "home" ∉ emptyStringState.syncingTabs ∧
    translationLookup emptyStringState "home" "title" = some "" ∧
    (translationGet emptyStringState "title" "home" (some "fallback")).1 = "" ∧
    "home" ∈ (translationGet emptyStringState "title" "home" (some "fallback")).2.syncingTabs ∧
    countA (translationGet emptyStringState "title" "home" (some "fallback")).2.pendingTabFetches
      "home" = countA emptyStringState.pendingTabFetches "home" + 1 := by
  have h := claim_C9_amended emptyStringState "title" "home" (some "fallback")
    (by decide) (by decide) (by decide) (by decide)
  exact ⟨by decide, by decide, by decide, by decide, h.1, h.2.1, h.2.2⟩

/-! ### Claim C7: successful tab syncs replace the cache snapshot -/

theorem lookupA_foldl_assocSet_not_mem {κ α : Type} [DecidableEq κ]
    (l : List (κ × α)) (m : List (κ × α)) (k : κ) (h : k ∉ l.map Prod.fst) :
    lookupA (l.foldl (fun acc kv => assocSet acc kv.1 kv.2) m) k = lookupA m k := by
  induction l generalizing m with
  | nil => rfl
  | cons kv rest ih =>
    have hk : ¬(k = kv.1 ∨ k ∈ rest.map Prod.fst) := by simpa using h
    push_neg at hk
    simp only [List.foldl_cons]
    rw [ih _ hk.2, lookupA_assocSet_ne _ _ _ _ hk.1]

/-- A key absent from the payload has no entry in the key map built from it. -/
theorem lookupA_buildKeyMap_not_mem (body : TabBody) (key : String)
    (h : key ∉ body.map Prod.fst) : lookupA (buildKeyMap body) key = none := by
  unfold buildKeyMap
  rw [lookupA_foldl_assocSet_not_mem body [] key h]
  rfl

/-- `#syncTab`'s success path (non-404, 2xx), unfolded: erase the
instrumentation entry, replace the tab's key map, mark the tab known, emit the
content-changed notification, and (in the `finally`) clear the in-flight
marker. -/
theorem syncTabComplete_success (s : SDK) (tab : String) (status : Nat) (body : TabBody)
    (h404 : status ≠ 404) (hok : respOk status = true) :
    syncTabComplete s tab (Fetch.resp status body) =
      (fun s1 => { s1 with syncingTabs := eraseA s1.syncingTabs tab })
        (emitContentUpdated
          { s with pendingTabFetches := eraseA s.pendingTabFetches tab
                   cache := assocSet s.cache tab (buildKeyMap body)
                   knownTabs := insertA s.knownTabs tab }) := by
  unfold syncTabComplete syncTabFetchPhase
  dsimp only
  rw [if_neg h404, hok]
  simp

/-- Claim C7.  For every tab sync that actually runs (forced or not) and
succeeds with a 2xx response, the cache entry for that tab is replaced by
exactly the key map built from the payload, every key absent from the payload
is absent from the tab's cache afterwards, and the tab is marked known. -/
theorem claim_C7_tab_sync_replaces_snapshot (s : SDK) (tab : String) (force : Bool)
    (status : Nat) (body : TabBody)
    (hconf : s.configSet = true)
    (hrun : ¬(tab ∈ s.syncingTabs ∧ force = false))
    (hok : respOk status = true) :
    lookupA (syncTabFull s tab force (Fetch.resp status body)).cache tab
      = some (buildKeyMap body) ∧
    tab ∈ (syncTabFull s tab force (Fetch.resp status body)).knownTabs ∧
    ∀ key, key ∉ body.map Prod.fst →
      ((lookupA (syncTabFull s tab force (Fetch.resp status body)).cache tab).bind
        fun m => lookupA m key) = none := by
  have h404 : status ≠ 404 := by
    intro h
    rw [h] at hok
    exact absurd hok (by decide)
  have hfull : syncTabFull s tab force (Fetch.resp status body)
      = syncTabComplete (syncTabStart s tab force) tab (Fetch.resp status body) := by
    unfold syncTabFull
    rw [hconf]
    simp [hrun]
  rw [hfull, syncTabComplete_success _ _ _ _ h404 hok]
  have hq := emitContentUpdated_quiet
    { syncTabStart s tab force with
      pendingTabFetches := eraseA (syncTabStart s tab force).pendingTabFetches tab
      cache := assocSet (syncTabStart s tab force).cache tab (buildKeyMap body)
      knownTabs := insertA (syncTabStart s tab force).knownTabs tab }
  have hcache := hq.2.2.2.2.2.1
  have hknown := hq.2.2.2.2.2.2.2.2.2.1
  refine ⟨?_, ?_, ?_⟩
  · show lookupA (emitContentUpdated _).cache tab = some (buildKeyMap body)
    rw [hcache]
    exact lookupA_assocSet_self _ tab _
  · show tab ∈ (emitContentUpdated _).knownTabs
    rw [hknown]
    exact self_mem_insertA _ tab
  · intro key hkey
    show ((lookupA (emitContentUpdated _).cache tab).bind fun m => lookupA m key) = none
    rw [hcache, lookupA_assocSet_self _ tab _]
    show lookupA (buildKeyMap body) key = none
    exact lookupA_buildKeyMap_not_mem body key hkey

/-- Witness for claim C7 at a concrete state: a forced re-sync while another
fetch is in flight still replaces the whole snapshot (the stale key `old`
disappears) and marks the tab known. -/
theorem claim_C7_witness :
    (let s0 : SDK := { initSDK with
        configSet := true
        cache := [("home", [("old", [("en", "x")])])]
        syncingTabs := ["home"]
        pendingTabFetches := ["home"] }
     let s1 := syncTabFull s0 "home" true (Fetch.resp 200 [("title", [("en", "Hi")])])
     lookupA s1.cache "home" = some [("title", [("en", "Hi")])] ∧
     "home" ∈ s1.knownTabs ∧
     ((lookupA s1.cache "home").bind fun m => lookupA m "old") = none) := by
  have h := claim_C7_tab_sync_replaces_snapshot
    { initSDK with
      configSet := true
      cache := [("home", [("old", [("en", "x")])])]
      syncingTabs := ["home"]
      pendingTabFetches := ["home"] }
    "home" true 200 [("title", [("en", "Hi")])]
    (by decide) (by decide) (by decide)
  exact ⟨h.1, h.2.1, h.2.2 "old" (by decide)⟩

/-! ### Claim C6: fetch failures are contained -/

/-- Outcomes on which a sync writes nothing to its cache slot: failures and
the 404 `no content` early return. -/
def fetchNoWrite {β : Type} : Fetch β → Prop
  | .netError => True
  | .resp status _ => respOk status = false ∨ status = 404

theorem fetchFails_noWrite {β : Type} (res : Fetch β) (h : fetchFails res) :
    fetchNoWrite res := by
  cases res with
  | netError => trivial
  | resp status body => exact Or.inl h.1

/-- A failing or 404 tab fetch leaves everything but the in-flight bookkeeping
unchanged (the `catch` swallows the error; the `finally` clears the marker). -/
theorem syncTabComplete_nowrite (s : SDK) (tab : String) (res : Fetch TabBody)
    (h : fetchNoWrite res) :
    syncTabComplete s tab res =
      { s with pendingTabFetches := eraseA s.pendingTabFetches tab
               syncingTabs := eraseA s.syncingTabs tab } := by
  cases res with
  | netError => rfl
  | resp status body =>
    by_cases h404 : status = 404
    · subst h404
      rfl
    · have hfalse : respOk status = false := by
        rcases h with h1 | h1
        · exact h1
        · exact absurd h1 h404
      unfold syncTabComplete syncTabFetchPhase
      dsimp only
      rw [if_neg h404, hfalse]
      rfl

theorem syncColorsComplete_nowrite (s : SDK) (res : Fetch ColorBody) (h : fetchNoWrite res) :
    syncColorsComplete s res = { s with colorsSyncInFlight := false } := by
  cases res with
  | netError => rfl
  | resp status body =>
    by_cases h404 : status = 404
    · subst h404
      rfl
    · have hfalse : respOk status = false := by
        rcases h with h1 | h1
        · exact h1
        · exact absurd h1 h404
      unfold syncColorsComplete syncColorsFetchPhase
      dsimp only
      rw [if_neg h404, hfalse]
      rfl

theorem syncImagesComplete_nowrite (s : SDK) (res : Fetch ImageBody) (h : fetchNoWrite res) :
    syncImagesComplete s res = { s with imagesSyncInFlight := false } := by
  cases res with
  | netError => rfl
  | resp status body =>
    by_cases h404 : status = 404
    · subst h404
      rfl
    · have hfalse : respOk status = false := by
        rcases h with h1 | h1
        · exact h1
        · exact absurd h1 h404
      unfold syncImagesComplete syncImagesFetchPhase
      dsimp only
      rw [if_neg h404, hfalse]
      rfl

theorem syncStoreComplete_nowrite (s : SDK) (ident : String) (res : Fetch StoreBody)
    (h : fetchNoWrite res) :
    syncStoreComplete s ident res =
      { s with syncingStores := eraseA s.syncingStores ident } := by
  cases res with
  | netError => rfl
  | resp status body =>
    by_cases h404 : status = 404
    · subst h404
      rfl
    · have hfalse : respOk status = false := by
        rcases h with h1 | h1
        · exact h1
        · exact absurd h1 h404
      unfold syncStoreComplete syncStoreFetchPhase
      dsimp only
      rw [if_neg h404, hfalse]
      rfl

/-- The entry a tab's cache slot holds after a fetch with the given outcome,
starting from the previous entry `old`: replaced by the payload's key map on a
non-404 2xx response, kept otherwise. -/
def tabOutcomeCache (old : Option TabMap) : Fetch TabBody → Option TabMap
  | .netError => old
  | .resp status body =>
    if respOk status = true ∧ status ≠ 404 then some (buildKeyMap body) else old

/-- The cache effect of a tab-sync completion on its own slot, for every
outcome. -/
theorem syncTabComplete_cache_self (s : SDK) (tab : String) (res : Fetch TabBody) :
    lookupA (syncTabComplete s tab res).cache tab
      = tabOutcomeCache (lookupA s.cache tab) res := by
  cases res with
  | netError => rfl
  | resp status body =>
    unfold tabOutcomeCache
    dsimp only
    by_cases h404 : status = 404
    · rw [syncTabComplete_nowrite s tab (Fetch.resp status body) (Or.inr h404)]
      simp [h404]
    · by_cases hok : respOk status = true
      · rw [syncTabComplete_success s tab status body h404 hok]
        have hq := emitContentUpdated_quiet
          { s with pendingTabFetches := eraseA s.pendingTabFetches tab
                   cache := assocSet s.cache tab (buildKeyMap body)
                   knownTabs := insertA s.knownTabs tab }
        have hc := hq.2.2.2.2.2.1
        rw [if_pos ⟨hok, h404⟩]
        show lookupA (emitContentUpdated _).cache tab = some (buildKeyMap body)
        rw [hc]
        exact lookupA_assocSet_self _ _ _
      · have hfalse : respOk status = false := by
          revert hok
          cases respOk status <;> simp
        rw [syncTabComplete_nowrite s tab (Fetch.resp status body) (Or.inl hfalse)]
        simp [hfalse]

/-- A completion for a different tab never touches this tab's cache entry. -/
theorem syncTabComplete_cache_other (s : SDK) (u : String) (res : Fetch TabBody) (t : String)
    (hne : t ≠ u) :
    lookupA (syncTabComplete s u res).cache t = lookupA s.cache t := by
  cases res with
  | netError => rfl
  | resp status body =>
    by_cases h404 : status = 404
    · rw [syncTabComplete_nowrite s u (Fetch.resp status body) (Or.inr h404)]
    · by_cases hok : respOk status = true
      · rw [syncTabComplete_success s u status body h404 hok]
        have hq := emitContentUpdated_quiet
          { s with pendingTabFetches := eraseA s.pendingTabFetches u
                   cache := assocSet s.cache u (buildKeyMap body)
                   knownTabs := insertA s.knownTabs u }
        have hc := hq.2.2.2.2.2.1
        show lookupA (emitContentUpdated _).cache t = lookupA s.cache t
        rw [hc]
        exact lookupA_assocSet_ne _ _ _ _ hne
      · have hfalse : respOk status = false := by
          revert hok
          cases respOk status <;> simp
        rw [syncTabComplete_nowrite s u (Fetch.resp status body) (Or.inl hfalse)]

theorem foldl_complete_cache_not_mem (tabs : List String) (oracle : String → Fetch TabBody)
    (s : SDK) (t : String) (h : t ∉ tabs) :
    lookupA ((tabs.foldl (fun a u => syncTabComplete a u (oracle u)) s)).cache t
      = lookupA s.cache t := by
  induction tabs generalizing s with
  | nil => rfl
  | cons u rest ih =>
    have hne : t ≠ u := fun hh => h (hh ▸ List.mem_cons_self _ _)
    have hrest : t ∉ rest := fun hh => h (List.mem_cons_of_mem _ hh)
    simp only [List.foldl_cons]
    rw [ih _ hrest, syncTabComplete_cache_other _ _ _ _ hne]

/-- Claim C6.  For every scope, a fetch that fails with a network error or a
non-2xx/non-404 status leaves that scope's cache slot exactly as it was; the
error raised inside the fetch phase (the modelled `throw`/rejection) exists
but is caught, so the sync functions return plain states and the public query
methods - which are total functions of the state in this embedding - can
propagate no exception.  In a sync wave over distinct tabs, each tab's final
cache entry is determined by its own outcome alone: a failing sibling aborts
nothing. -/
theorem claim_C6_fetch_failures_contained :
    (∀ (s : SDK) (tab : String) (force : Bool) (res : Fetch TabBody), fetchFails res →
      (syncTabFull s tab force res).cache = s.cache ∧
      ∃ e, syncTabFetchPhase s tab res = Except.error e) ∧
    (∀ (s : SDK) (res : Fetch ColorBody), fetchFails res →
      (syncColorsFull s res).colorsCache = s.colorsCache) ∧
    (∀ (s : SDK) (res : Fetch ImageBody), fetchFails res →
      (syncImagesFull s res).imagesCache = s.imagesCache) ∧
    (∀ (s : SDK) (ident : String) (force : Bool) (res : Fetch StoreBody), fetchFails res →
      (syncStoreFull s ident force res).dataStoreCache = s.dataStoreCache) ∧
    (∀ (s : SDK) (tabs : List String) (oracle : String → Fetch TabBody),
      s.configSet = true → tabs.Nodup → (∀ u ∈ tabs, u ∉ s.syncingTabs) →
      ∀ t ∈ tabs,
        lookupA (syncTabWave s tabs oracle).cache t
          = tabOutcomeCache (lookupA s.cache t) (oracle t)) := by
  have herr : ∀ (β : Type) (res : Fetch β), fetchFails res →
      (match res with
       | .netError => True
       | .resp status _ => respOk status = false ∧ status ≠ 404) := by
    intro β res h
    cases res with
    | netError => trivial
    | resp status body => exact h
  refine ⟨?_, ?_, ?_, ?_, ?_⟩
  · intro s tab force res hfail
    constructor
    · unfold syncTabFull
      split
      · rfl
      split
      · rfl
      · rw [syncTabComplete_nowrite _ _ _ (fetchFails_noWrite res hfail)]
        exact (syncTabStart_quietB s tab force).1.2.2.2.2.2.1
    · cases res with
      | netError => exact ⟨"network error", rfl⟩
      | resp status body =>
        refine ⟨"HTTP error", ?_⟩
        unfold syncTabFetchPhase
        dsimp only
        rw [if_neg hfail.2, hfail.1]
        rfl
  · intro s res hfail
    unfold syncColorsFull
    split
    · rfl
    split
    · rfl
    · rw [syncColorsComplete_nowrite _ _ (fetchFails_noWrite res hfail)]
      exact (syncColorsStart_quietB s).1.2.2.2.2.2.2.1
  · intro s res hfail
    unfold syncImagesFull
    split
    · rfl
    split
    · rfl
    · rw [syncImagesComplete_nowrite _ _ (fetchFails_noWrite res hfail)]
      exact (syncImagesStart_quietB s).1.2.2.2.2.2.2.2.1
  · intro s ident force res hfail
    unfold syncStoreFull
    split
    · rfl
    split
    · rfl
    · rw [syncStoreComplete_nowrite _ _ _ (fetchFails_noWrite res hfail)]
      exact (syncStoreStart_quietB s ident force).1.2.2.2.2.2.2.2.2.1
  · intro s tabs oracle hconf hnodup hdisj t ht
    unfold syncTabWave
    dsimp only
    have hcacheA : (tabs.foldl (fun a u => syncTabStart a u false) s).cache = s.cache :=
      (foldl_syncTabStart_quietB tabs s).1.2.2.2.2.2.1
    revert hcacheA
    generalize tabs.foldl (fun a u => syncTabStart a u false) s = sA
    intro hcacheA
    have main : ∀ (l : List String) (s' : SDK), l.Nodup → t ∈ l →
        lookupA ((l.foldl (fun a u => syncTabComplete a u (oracle u)) s')).cache t
          = tabOutcomeCache (lookupA s'.cache t) (oracle t) := by
      intro l
      induction l with
      | nil => intro s' _ hmem; simp at hmem
      | cons u rest ih =>
        intro s' hnd hmem
        have hnd2 := List.nodup_cons.1 hnd
        simp only [List.foldl_cons]
        by_cases hts : t = u
        · subst hts
          rw [foldl_complete_cache_not_mem rest oracle _ t hnd2.1]
          exact syncTabComplete_cache_self s' t (oracle t)
        · have hrest : t ∈ rest := by
            rcases List.mem_cons.1 hmem with h1 | h1
            · exact absurd h1 hts
            · exact h1
          rw [ih _ hnd2.2 hrest, syncTabComplete_cache_other _ _ _ _ hts]
    rw [main tabs sA hnodup ht, hcacheA]

/-- A configured state with cached content for two tabs, for the C6 witness. -/
def twoTabState : SDK :=
  { initSDK with
    configSet := true
    cache := [("home", [("title", [("en", "x")])]), ("about", [("t", [("en", "y")])])] }

/-- A wave oracle for the C6 witness: `home` fails with a 500, `about`
succeeds. -/
def twoTabOracle : String → Fetch TabBody := fun t =>
  if t = "home" then Fetch.resp 500 [] else Fetch.resp 200 [("t2", [("en", "z")])]

/-- Witness for claim C6: tab `home` fails with a 500 while its sibling
`about` succeeds in the same wave - `home` keeps its previous entry, `about`
is replaced. -/
theorem claim_C6_witness :
    (syncTabFull twoTabState "home" false (Fetch.resp 500 [])).cache = twoTabState.cache ∧
    lookupA (syncTabWave twoTabState ["home", "about"] twoTabOracle).cache "home"
      = some [("title", [("en", "x")])] ∧
    lookupA (syncTabWave twoTabState ["home", "about"] twoTabOracle).cache "about"
      = some [("t2", [("en", "z")])] := by
  have hfail : fetchFails (Fetch.resp 500 ([] : TabBody)) := by
    constructor
    · decide
    · decide
  have h1 := (claim_C6_fetch_failures_contained.1 twoTabState "home" false
    (Fetch.resp 500 []) hfail).1
  have h5 := claim_C6_fetch_failures_contained.2.2.2.2 twoTabState ["home", "about"]
    twoTabOracle (by decide) (by decide) (by decide)
  refine ⟨h1, ?_, ?_⟩
  · rw [h5 "home" (by decide)]
    decide
  · rw [h5 "about" (by decide)]
    decide

/-! ### Claim C5: the resolved language is always available -/

theorem jsToLower_eq_empty (v : String) : jsToLower v = "" ↔ v = "" := by
  cases v with
  | mk data =>
    constructor
    · intro h
      have h2 : data.map Char.toLower = [] := congrArg String.data h
      have h3 : data = [] := List.map_eq_nil_iff.1 h2
      rw [h3]
    · intro h
      have h2 : data = [] := congrArg String.data h
      unfold jsToLower
      rw [h2]
      rfl

/-- Soundness of the case-insensitive lookup built by
`#updateAvailableLanguageLookup`: every value it yields is one of the
available languages, stored under its own lowercase form. -/
theorem lookupA_fold_lower_sound (langs : List String) :
    ∀ (m : List (String × String)) (k x : String),
      lookupA (langs.foldl (fun acc l => assocSet acc (jsToLower l) l) m) k = some x →
      (x ∈ langs ∧ jsToLower x = k) ∨ lookupA m k = some x := by
  induction langs with
  | nil => intro m k x h; exact Or.inr h
  | cons a rest ih =>
    intro m k x h
    simp only [List.foldl_cons] at h
    rcases ih _ _ _ h with h1 | h1
    · exact Or.inl ⟨List.mem_cons_of_mem _ h1.1, h1.2⟩
    · by_cases hk : k = jsToLower a
      · subst hk
        rw [lookupA_assocSet_self] at h1
        injection h1 with h2
        subst h2
        exact Or.inl ⟨List.mem_cons_self _ _, rfl⟩
      · rw [lookupA_assocSet_ne _ _ _ _ hk] at h1
        exact Or.inr h1

theorem lookupA_buildLookup_sound (langs : List String) (k x : String)
    (h : lookupA (buildLookup langs) k = some x) : x ∈ langs ∧ jsToLower x = k := by
  rcases lookupA_fold_lower_sound langs [] k x h with h1 | h1
  · exact h1
  · simp [lookupA] at h1

theorem lookupA_fold_lower_preserve (langs : List String) :
    ∀ (m : List (String × String)) (k : String), (∃ x, lookupA m k = some x) →
      ∃ y, lookupA (langs.foldl (fun acc l => assocSet acc (jsToLower l) l) m) k = some y := by
  induction langs with
  | nil => intro m k h; exact h
  | cons a rest ih =>
    intro m k h
    simp only [List.foldl_cons]
    apply ih
    by_cases hk : k = jsToLower a
    · subst hk
      exact ⟨a, lookupA_assocSet_self _ _ _⟩
    · obtain ⟨x, hx⟩ := h
      refine ⟨x, ?_⟩
      rw [lookupA_assocSet_ne _ _ _ _ hk]
      exact hx

/-- Completeness: every available language is reachable through its lowercase
form in the lookup. -/
theorem lookupA_buildLookup_mem (langs : List String) :
    ∀ (m : List (String × String)) (l : String), l ∈ langs →
      ∃ y, lookupA (langs.foldl (fun acc la => assocSet acc (jsToLower la) la) m) (jsToLower l)
        = some y := by
  induction langs with
  | nil => intro m l hl; simp at hl
  | cons a rest ih =>
    intro m l hl
    simp only [List.foldl_cons]
    rcases List.mem_cons.1 hl with h1 | h1
    · subst h1
      apply lookupA_fold_lower_preserve
      exact ⟨l, lookupA_assocSet_self _ _ _⟩
    · exact ih _ _ h1

/-- Every language `#applyLanguage` resolves is one of the available
languages. -/
theorem resolvedLanguage_mem (s : SDK) (language x : String)
    (hwf : s.availableLanguageLookup = buildLookup s.availableLanguages)
    (h : resolvedLanguage s language = some x) : x ∈ s.availableLanguages := by
  unfold resolvedLanguage at h
  dsimp only at h
  split at h
  · unfold jsOr at h
    split at h
    · rw [hwf] at h
      exact (lookupA_buildLookup_sound _ _ _ h).1
    · exact List.mem_of_find?_eq_some h
  · cases h

/-- An available non-empty language always resolves (to some member of the
available list). -/
theorem resolvedLanguage_of_mem (s : SDK) (x : String)
    (hwf : s.availableLanguageLookup = buildLookup s.availableLanguages)
    (hmem : x ∈ s.availableLanguages) (hne : x ≠ "") :
    ∃ y, resolvedLanguage s x = some y ∧ y ∈ s.availableLanguages := by
  obtain ⟨y, hy⟩ := lookupA_buildLookup_mem s.availableLanguages [] x hmem
  have hy' : lookupA s.availableLanguageLookup (jsToLower x) = some y := by
    rw [hwf]
    exact hy
  have hsound := lookupA_buildLookup_sound s.availableLanguages _ y hy
  have hyne : y ≠ "" := by
    intro h0
    apply hne
    apply (jsToLower_eq_empty x).1
    rw [← hsound.2, h0]
    rfl
  refine ⟨y, ?_, hsound.1⟩
  unfold resolvedLanguage
  dsimp only
  rw [hy']
  simp [jsOr, jsTruthy, hyne]

/-- The shared shape `lookup.get(cand.toLowerCase()) || cand` used by the
stored-preference and configured-default stages: when it produces a value and
the candidate is non-empty, the value is an available language. -/
theorem lookup_or_mem (s : SDK) (cand v x : String)
    (hwf : s.availableLanguageLookup = buildLookup s.availableLanguages)
    (hlk : lookupA s.availableLanguageLookup (jsToLower cand) = some v)
    (hcne : cand ≠ "")
    (hx : jsOr (some v) (some cand) = some x) : x ∈ s.availableLanguages := by
  rw [hwf] at hlk
  have hsound := lookupA_buildLookup_sound s.availableLanguages _ v hlk
  by_cases hv : v = ""
  · exfalso
    apply hcne
    apply (jsToLower_eq_empty cand).1
    rw [← hsound.2, hv]
    rfl
  · have he : jsOr (some v) (some cand) = some v := by simp [jsOr, jsTruthy, hv]
    rw [he] at hx
    injection hx with h2
    exact h2 ▸ hsound.1

/-- A priority-chain stage result is safe when every non-empty value it can
produce is an available language. -/
def stageP (s : SDK) (r : Option String) : Prop :=
  ∀ x, r = some x → x ≠ "" → x ∈ s.availableLanguages

theorem stageP_stored (s : SDK)
    (hwf : s.availableLanguageLookup = buildLookup s.availableLanguages) :
    stageP s (rilStored s) := by
  intro x hx _
  unfold rilStored at hx
  split at hx
  · split at hx
    · cases hx
    · split at hx
      · exact lookup_or_mem s _ _ x hwf (by assumption) (by assumption) hx
      · cases hx
  · cases hx

theorem stageP_default (s : SDK) (r1 : Option String)
    (hwf : s.availableLanguageLookup = buildLookup s.availableLanguages)
    (hP : stageP s r1) : stageP s (rilDefault s r1) := by
  intro x hx hne
  unfold rilDefault at hx
  split at hx
  · exact hP x hx hne
  · split at hx
    · split at hx
      · exact hP x hx hne
      · split at hx
        · exact lookup_or_mem s _ _ x hwf (by assumption) (by assumption) hx
        · exact hP x hx hne
    · exact hP x hx hne

theorem stageP_browser (s : SDK) (navLangs : List String) (r2 : Option String)
    (hwf : s.availableLanguageLookup = buildLookup s.availableLanguages)
    (hP : stageP s r2) : stageP s (rilBrowser s navLangs r2) := by
  intro x hx hne
  unfold rilBrowser at hx
  split at hx
  · exact hP x hx hne
  · unfold pickBrowserLanguage at hx
    obtain ⟨cand, _, hcand⟩ := List.exists_of_findSome?_eq_some hx
    cases hlk : lookupA s.availableLanguageLookup cand with
    | none => rw [hlk] at hcand; cases hcand
    | some v =>
      rw [hlk] at hcand
      injection hcand with h2
      rw [hwf] at hlk
      have hsound := lookupA_buildLookup_sound s.availableLanguages _ v hlk
      by_cases hv : v = ""
      · exfalso
        apply hne
        rw [← h2, if_pos hv, ← hsound.2, hv]
        rfl
      · rw [if_neg hv] at h2
        exact h2 ▸ hsound.1

theorem stageP_english (s : SDK) (r3 : Option String)
    (hwf : s.availableLanguageLookup = buildLookup s.availableLanguages)
    (hP : stageP s r3) : stageP s (rilEnglish s r3) := by
  intro x hx hne
  unfold rilEnglish at hx
  split at hx
  · exact hP x hx hne
  · split at hx
    · rename_i v hlk
      rw [hwf] at hlk
      have hsound := lookupA_buildLookup_sound s.availableLanguages _ v hlk
      by_cases hv : v = ""
      · exfalso
        have h1 : jsToLower v = "en" := hsound.2
        rw [hv] at h1
        exact absurd h1 (by decide)
      · have he : jsOr (some v) (some "en") = some v := by simp [jsOr, jsTruthy, hv]
        rw [he] at hx
        injection hx with h2
        exact h2 ▸ hsound.1
    · exact hP x hx hne

theorem stageP_first (s : SDK) (r4 : Option String)
    (hP : stageP s r4) : stageP s (rilFirst s r4) := by
  intro x hx hne
  unfold rilFirst at hx
  split at hx
  · exact hP x hx hne
  · split at hx
    · exact hP x hx hne
    · rename_i l rest heq
      injection hx with h2
      rw [heq, ← h2]
      exact List.mem_cons_self _ _

/-- After `#applyLanguage` succeeds in resolving a language (with events
enabled), the current language is an available language. -/
theorem applyLanguage_mem (s : SDK) (language x reason : String)
    (hwf : s.availableLanguageLookup = buildLookup s.availableLanguages)
    (h : resolvedLanguage s language = some x) :
    (applyLanguage s language true reason).1.currentLanguage
      ∈ (applyLanguage s language true reason).1.availableLanguages := by
  have hx := resolvedLanguage_mem s language x hwf h
  by_cases hc : s.currentLanguage = x
  · rw [applyLanguage_of_same reason h hc]
    dsimp only
    rw [hc]
    exact hx
  · rw [applyLanguage_of_change reason h hc]
    dsimp only
    have hq := emitContentUpdated_quiet
      (storageSet { s with currentLanguage := x } "cmscure_current_language" x)
    rw [hq.2.2.2.2.1, hq.2.2.1]
    simpa [storageSet] using hx

/-- Claim C5.  Part 1: whenever `#resolveInitialLanguage` completes the
resolution (sets the resolved flag), the resulting current language is a
member of the available languages - for every branch of the priority chain,
since each stage can only yield a member (or a falsy value that defers to the
next stage).  Part 2: every subsequent `#applyLanguage` with events (the body
of `setLanguage`) preserves this membership.  Part 3: a language code matching
no available language (case-insensitively) is rejected and the state is
completely unchanged.  The well-formedness hypothesis - the lookup is the one
built from `availableLanguages` - is established at every site that replaces
the language list (source lines 251, 692). -/
theorem claim_C5_resolved_language_available :
    (∀ (s : SDK) (navLangs : List String),
      s.availableLanguageLookup = buildLookup s.availableLanguages →
      s.autoLanguageResolved = false →
      (resolveInitialLanguage s navLangs).1.autoLanguageResolved = true →
      (resolveInitialLanguage s navLangs).1.currentLanguage
        ∈ (resolveInitialLanguage s navLangs).1.availableLanguages) ∧
    (∀ (s : SDK) (language reason : String),
      s.availableLanguageLookup = buildLookup s.availableLanguages →
      s.currentLanguage ∈ s.availableLanguages →
      (applyLanguage s language true reason).1.currentLanguage
        ∈ (applyLanguage s language true reason).1.availableLanguages) ∧
    (∀ (s : SDK) (language reason : String),
      s.availableLanguageLookup = buildLookup s.availableLanguages →
      (∀ l ∈ s.availableLanguages, jsToLower l ≠ jsToLower language) →
      applyLanguage s language true reason = (s, [])) := by
  refine ⟨?_, ?_, ?_⟩
  · intro s navLangs hwf hnot
    have hP : stageP s
        (rilFirst s (rilEnglish s (rilBrowser s navLangs (rilDefault s (rilStored s))))) :=
      stageP_first s _ (stageP_english s _ hwf (stageP_browser s navLangs _ hwf
        (stageP_default s _ hwf (stageP_stored s hwf))))
    cases hR : rilFirst s (rilEnglish s (rilBrowser s navLangs (rilDefault s (rilStored s)))) with
    | none =>
      have hfin : resolveInitialLanguage s navLangs = (s, []) := by
        unfold resolveInitialLanguage
        rw [hnot, hR]
        rfl
      rw [hfin]
      intro hflag
      rw [hnot] at hflag
      cases hflag
    | some resolved =>
      by_cases hres0 : resolved = ""
      · have hfin : resolveInitialLanguage s navLangs = (s, []) := by
          unfold resolveInitialLanguage
          rw [hnot, hR]
          dsimp only
          rw [if_pos hres0]
          rfl
        rw [hfin]
        intro hflag
        rw [hnot] at hflag
        cases hflag
      · have hresmem : resolved ∈ s.availableLanguages := hP resolved hR hres0
        have hfin : resolveInitialLanguage s navLangs =
            (refreshAutoSubscribedStarts
              (applyLanguage { s with autoLanguageResolved := true } resolved true
                "InitialLanguageResolved").1,
             (applyLanguage { s with autoLanguageResolved := true } resolved true
                "InitialLanguageResolved").2) := by
          unfold resolveInitialLanguage
          rw [hnot, hR]
          dsimp only
          rw [if_neg hres0]
          rfl
        rw [hfin]
        intro _
        have hwf1 : ({ s with autoLanguageResolved := true } : SDK).availableLanguageLookup
            = buildLookup ({ s with autoLanguageResolved := true } : SDK).availableLanguages := hwf
        obtain ⟨y, hy, _⟩ := resolvedLanguage_of_mem { s with autoLanguageResolved := true }
          resolved hwf1 hresmem hres0
        have hmem := applyLanguage_mem { s with autoLanguageResolved := true } resolved y
          "InitialLanguageResolved" hwf1 hy
        have hrq := refreshAutoSubscribedStarts_quietB
          (applyLanguage { s with autoLanguageResolved := true } resolved true
            "InitialLanguageResolved").1
        dsimp only
        rw [hrq.1.2.2.2.2.1, hrq.1.2.2.1]
        exact hmem
  · intro s language reason hwf hcur
    cases h : resolvedLanguage s language with
    | none =>
      rw [applyLanguage_of_none true reason h]
      exact hcur
    | some x => exact applyLanguage_mem s language x reason hwf h
  · intro s language reason hwf hnomatch
    have hres : resolvedLanguage s language = none := by
      unfold resolvedLanguage
      dsimp only
      have hg : lookupA s.availableLanguageLookup (jsToLower language) = none := by
        cases hlk : lookupA s.availableLanguageLookup (jsToLower language) with
        | none => rfl
        | some v =>
          rw [hwf] at hlk
          have hsound := lookupA_buildLookup_sound s.availableLanguages _ v hlk
          exact absurd hsound.2 (hnomatch v hsound.1)
      have hf : s.availableLanguages.find? (fun l => decide (l = language)) = none := by
        cases hfind : s.availableLanguages.find? (fun l => decide (l = language)) with
        | none => rfl
        | some y =>
          have hy : y = language := by
            have := List.find?_some hfind
            exact of_decide_eq_true this
          have hymem := List.mem_of_find?_eq_some hfind
          exact absurd (hy ▸ rfl) (hnomatch y hymem)
      rw [hg, hf]
      rfl
    exact applyLanguage_of_none true reason hres

/-- A state authenticated with languages `["EN", "fr"]`, for the C5 witness. -/
def twoLangState : SDK :=
  { initSDK with
    availableLanguages := ["EN", "fr"]
    availableLanguageLookup := buildLookup ["EN", "fr"] }

/-- Witness for claim C5 at concrete inputs: the browser-locale branch picks
`fr` (member), `applyLanguage` preserves membership, and an unavailable code
(`de`) is rejected leaving the state unchanged. -/
theorem claim_C5_witness :
    (resolveInitialLanguage twoLangState ["fr-FR"]).1.autoLanguageResolved = true ∧
    (resolveInitialLanguage twoLangState ["fr-FR"]).1.currentLanguage
      ∈ (resolveInitialLanguage twoLangState ["fr-FR"]).1.availableLanguages ∧
    (applyLanguage { twoLangState with currentLanguage := "fr" } "EN" true "r").1.currentLanguage
      ∈ (applyLanguage { twoLangState with currentLanguage := "fr" } "EN" true "r").1.availableLanguages ∧
    applyLanguage twoLangState "de" true "r" = (twoLangState, []) := by
  have h1 := claim_C5_resolved_language_available.1 twoLangState ["fr-FR"]
    (by decide) (by decide)
  have h2 := claim_C5_resolved_language_available.2.1
    { twoLangState with currentLanguage := "fr" } "EN" "r" (by decide) (by decide)
  have h3 := claim_C5_resolved_language_available.2.2 twoLangState "de" "r"
    (by decide) (by decide)
  exact ⟨by decide, h1 (by decide), h2, h3⟩

/-! ### Claim C10: the available-language list and its lookup -/

/-- `availableLanguages` and the lookup are unchanged by a tab-sync
completion. -/
theorem syncTabComplete_langs (s : SDK) (tab : String) (res : Fetch TabBody) :
    (syncTabComplete s tab res).availableLanguages = s.availableLanguages ∧
    (syncTabComplete s tab res).availableLanguageLookup = s.availableLanguageLookup := by
  cases res with
  | netError => exact ⟨rfl, rfl⟩
  | resp status body =>
    by_cases h404 : status = 404
    · rw [syncTabComplete_nowrite s tab (Fetch.resp status body) (Or.inr h404)]
      exact ⟨rfl, rfl⟩
    · by_cases hok : respOk status = true
      · rw [syncTabComplete_success s tab status body h404 hok]
        have hq := emitContentUpdated_quiet
          { s with pendingTabFetches := eraseA s.pendingTabFetches tab
                   cache := assocSet s.cache tab (buildKeyMap body)
                   knownTabs := insertA s.knownTabs tab }
        exact ⟨hq.2.2.1, hq.2.2.2.1⟩
      · have hfalse : respOk status = false := by
          revert hok
          cases respOk status <;> simp
        rw [syncTabComplete_nowrite s tab (Fetch.resp status body) (Or.inl hfalse)]
        exact ⟨rfl, rfl⟩

theorem syncColorsComplete_langs (s : SDK) (res : Fetch ColorBody) :
    (syncColorsComplete s res).availableLanguages = s.availableLanguages ∧
    (syncColorsComplete s res).availableLanguageLookup = s.availableLanguageLookup := by
  cases res with
  | netError => exact ⟨rfl, rfl⟩
  | resp status body =>
    by_cases h404 : status = 404
    · rw [syncColorsComplete_nowrite s (Fetch.resp status body) (Or.inr h404)]
      exact ⟨rfl, rfl⟩
    · by_cases hok : respOk status = true
      · have hfin : syncColorsComplete s (Fetch.resp status body) =
            { emitContentUpdated { s with colorsCache := some (buildColorMap body)
                                          autoSubscribedColors := true }
              with colorsSyncInFlight := false } := by
          unfold syncColorsComplete syncColorsFetchPhase
          dsimp only
          rw [if_neg h404, hok]
          rfl
        rw [hfin]
        have hq := emitContentUpdated_quiet
          { s with colorsCache := some (buildColorMap body), autoSubscribedColors := true }
        exact ⟨hq.2.2.1, hq.2.2.2.1⟩
      · have hfalse : respOk status = false := by
          revert hok
          cases respOk status <;> simp
        rw [syncColorsComplete_nowrite s (Fetch.resp status body) (Or.inl hfalse)]
        exact ⟨rfl, rfl⟩

theorem syncImagesComplete_langs (s : SDK) (res : Fetch ImageBody) :
    (syncImagesComplete s res).availableLanguages = s.availableLanguages ∧
    (syncImagesComplete s res).availableLanguageLookup = s.availableLanguageLookup := by
  cases res with
  | netError => exact ⟨rfl, rfl⟩
  | resp status body =>
    by_cases h404 : status = 404
    · rw [syncImagesComplete_nowrite s (Fetch.resp status body) (Or.inr h404)]
      exact ⟨rfl, rfl⟩
    · by_cases hok : respOk status = true
      · have hfin : syncImagesComplete s (Fetch.resp status body) =
            { emitContentUpdated { s with imagesCache := some (buildImageMap body)
                                          autoSubscribedImages := true }
              with imagesSyncInFlight := false } := by
          unfold syncImagesComplete syncImagesFetchPhase
          dsimp only
          rw [if_neg h404, hok]
          rfl
        rw [hfin]
        have hq := emitContentUpdated_quiet
          { s with imagesCache := some (buildImageMap body), autoSubscribedImages := true }
        exact ⟨hq.2.2.1, hq.2.2.2.1⟩
      · have hfalse : respOk status = false := by
          revert hok
          cases respOk status <;> simp
        rw [syncImagesComplete_nowrite s (Fetch.resp status body) (Or.inl hfalse)]
        exact ⟨rfl, rfl⟩

theorem syncStoreComplete_langs (s : SDK) (ident : String) (res : Fetch StoreBody) :
    (syncStoreComplete s ident res).availableLanguages = s.availableLanguages ∧
    (syncStoreComplete s ident res).availableLanguageLookup = s.availableLanguageLookup := by
  cases res with
  | netError => exact ⟨rfl, rfl⟩
  | resp status body =>
    by_cases h404 : status = 404
    · rw [syncStoreComplete_nowrite s ident (Fetch.resp status body) (Or.inr h404)]
      exact ⟨rfl, rfl⟩
    · by_cases hok : respOk status = true
      · have hfin : syncStoreComplete s ident (Fetch.resp status body) =
            (fun s1 => { s1 with syncingStores := eraseA s1.syncingStores ident })
              (emitContentUpdated
                { s with dataStoreCache := assocSet s.dataStoreCache ident (s.nextId, body)
                         nextId := s.nextId + 1
                         knownStores := insertA s.knownStores ident
                         autoSubscribedStores := insertA s.autoSubscribedStores ident }) := by
          unfold syncStoreComplete syncStoreFetchPhase
          dsimp only
          rw [if_neg h404, hok]
          rfl
        rw [hfin]
        have hq := emitContentUpdated_quiet
          { s with dataStoreCache := assocSet s.dataStoreCache ident (s.nextId, body)
                   nextId := s.nextId + 1
                   knownStores := insertA s.knownStores ident
                   autoSubscribedStores := insertA s.autoSubscribedStores ident }
        exact ⟨hq.2.2.1, hq.2.2.2.1⟩
      · have hfalse : respOk status = false := by
          revert hok
          cases respOk status <;> simp
        rw [syncStoreComplete_nowrite s ident (Fetch.resp status body) (Or.inl hfalse)]
        exact ⟨rfl, rfl⟩

theorem observeE_ok_langs (s : SDK) (reference : String) (lid : Nat) (d : Option JSVal)
    (s2 : SDK) (inv : Nat × JSVal) (h : observeE s reference lid d = Except.ok (s2, inv)) :
    s2.availableLanguages = s.availableLanguages ∧
    s2.availableLanguageLookup = s.availableLanguageLookup := by
  unfold observeE at h
  dsimp only at h
  split at h
  · cases h
  · cases hm : lookupA s.bindingChannels (jsTrim reference) with
    | some c =>
      rw [hm] at h
      dsimp only at h
      injection h with h2
      injection h2 with ha hb
      rw [← ha]
      exact ⟨rfl, rfl⟩
    | none =>
      rw [hm] at h
      dsimp only at h
      injection h with h2
      injection h2 with ha hb
      rw [← ha]
      have hq := resolveVal_quietB s (jsTrim reference) d
      exact ⟨hq.1.2.2.1, hq.1.2.2.2.1⟩

/-- `#resolveInitialLanguage` never modifies `availableLanguages` or the
lookup. -/
theorem resolveInitialLanguage_langs (s : SDK) (navLangs : List String) :
    (resolveInitialLanguage s navLangs).1.availableLanguages = s.availableLanguages ∧
    (resolveInitialLanguage s navLangs).1.availableLanguageLookup
      = s.availableLanguageLookup := by
  unfold resolveInitialLanguage
  split
  · exact ⟨rfl, rfl⟩
  · split
    · rename_i resolved heq
      split
      · exact ⟨rfl, rfl⟩
      · dsimp only
        have happ := applyLanguage_fields { s with autoLanguageResolved := true } resolved
          "InitialLanguageResolved"
        have hrq := refreshAutoSubscribedStarts_quietB
          (applyLanguage { s with autoLanguageResolved := true } resolved true
            "InitialLanguageResolved").1
        exact ⟨hrq.1.2.2.1.trans happ.2, hrq.1.2.2.2.1.trans happ.1⟩
    · exact ⟨rfl, rfl⟩

/-- States reachable by the modelled SDK operations, starting from the fresh
instance, through authentication, language resolution and changes, queries,
observation, realtime-triggered completions and refreshes. -/
inductive ReachAuth : SDK → Prop where
  | init : ReachAuth initSDK
  | auth (s : SDK) (p : AuthPayload) (h : ReachAuth s) : ReachAuth (authApply s p)
  | resolveInit (s : SDK) (nav : List String) (h : ReachAuth s) :
      ReachAuth (resolveInitialLanguage s nav).1
  | applyLang (s : SDK) (language : String) (e : Bool) (r : String) (h : ReachAuth s) :
      ReachAuth (applyLanguage s language e r).1
  | setLang (s : SDK) (language : String) (h : ReachAuth s) :
      ReachAuth (setLanguage s language).1
  | refresh (s : SDK) (h : ReachAuth s) : ReachAuth (refreshAutoSubscribedStarts s)
  | translationOp (s : SDK) (key tab : String) (d : Option String) (h : ReachAuth s) :
      ReachAuth (translationGet s key tab d).2
  | colorOp (s : SDK) (key : String) (d : JSVal) (h : ReachAuth s) :
      ReachAuth (colorGet s key d).2
  | imageOp (s : SDK) (key : String) (d : JSVal) (h : ReachAuth s) :
      ReachAuth (imageGet s key d).2
  | dataStoreOp (s : SDK) (ident : String) (h : ReachAuth s) :
      ReachAuth (dataStorePublic s ident).2
  | resolveOp (s : SDK) (reference : String) (d : Option JSVal) (h : ReachAuth s) :
      ReachAuth (resolveVal s reference d).2
  | observeOp (s : SDK) (reference : String) (lid : Nat) (d : Option JSVal) (s2 : SDK)
      (inv : Nat × JSVal) (hok : observeE s reference lid d = Except.ok (s2, inv))
      (h : ReachAuth s) : ReachAuth s2
  | unsubOp (s : SDK) (normalized : String) (lid : Nat) (h : ReachAuth s) :
      ReachAuth (unsubscribe s normalized lid)
  | notifyOp (s : SDK) (h : ReachAuth s) : ReachAuth (notifyBindings s).1
  | startTab (s : SDK) (tab : String) (force : Bool) (h : ReachAuth s) :
      ReachAuth (syncTabStart s tab force)
  | startColors (s : SDK) (h : ReachAuth s) : ReachAuth (syncColorsStart s)
  | startImages (s : SDK) (h : ReachAuth s) : ReachAuth (syncImagesStart s)
  | startStore (s : SDK) (ident : String) (force : Bool) (h : ReachAuth s) :
      ReachAuth (syncStoreStart s ident force)
  | tabDone (s : SDK) (tab : String) (res : Fetch TabBody) (h : ReachAuth s) :
      ReachAuth (syncTabComplete s tab res)
  | colorsDone (s : SDK) (res : Fetch ColorBody) (h : ReachAuth s) :
      ReachAuth (syncColorsComplete s res)
  | imagesDone (s : SDK) (res : Fetch ImageBody) (h : ReachAuth s) :
      ReachAuth (syncImagesComplete s res)
  | storeDone (s : SDK) (ident : String) (res : Fetch StoreBody) (h : ReachAuth s) :
      ReachAuth (syncStoreComplete s ident res)

/-- Fold-level helper: keys whose lowercase form none of the processed
languages carries are untouched. -/
theorem lookupA_fold_lower_skip (langs : List String) :
    ∀ (m : List (String × String)) (k : String), (∀ l ∈ langs, jsToLower l ≠ k) →
      lookupA (langs.foldl (fun acc l => assocSet acc (jsToLower l) l) m) k = lookupA m k := by
  induction langs with
  | nil => intro m k _; rfl
  | cons a rest ih =>
    intro m k hk
    simp only [List.foldl_cons]
    rw [ih _ _ fun l hl => hk l (List.mem_cons_of_mem _ hl)]
    rw [lookupA_assocSet_ne]
    intro h
    exact hk a (List.mem_cons_self _ _) h.symm

/-- Last-wins reachability: an entry whose lowercase form no later entry
shares is reachable through the lookup. -/
theorem lookupA_buildLookup_last (pre : List String) (l : String) (post : List String)
    (hpost : ∀ l2 ∈ post, jsToLower l2 ≠ jsToLower l) :
    lookupA (buildLookup (pre ++ l :: post)) (jsToLower l) = some l := by
  unfold buildLookup
  rw [List.foldl_append]
  simp only [List.foldl_cons]
  rw [lookupA_fold_lower_skip post _ _ hpost]
  exact lookupA_assocSet_self _ _ _

/-- Claim C10 counterexample.  The claim states every entry of
`availableLanguages` is reachable through the lookup.  After authenticating
with the (non-empty) language list `["EN", "en"]`, the lookup collapses both
entries onto the key `en` with the later entry winning, so no key reaches
`"EN"`. -/
theorem claim_C10_counterexample :
    (authApply initSDK
        { token := "tok", availableLanguages := some ["EN", "en"], tabs := [], stores := [] }
      ).availableLanguages = ["EN", "en"] ∧
    (authApply initSDK
        { token := "tok", availableLanguages := some ["EN", "en"], tabs := [], stores := [] }
      ).availableLanguageLookup = [("en", "en")] ∧
    ∀ k, lookupA (authApply initSDK
        { token := "tok", availableLanguages := some ["EN", "en"], tabs := [], stores := [] }
      ).availableLanguageLookup k ≠ some "EN" := by
  refine ⟨by decide, by decide, ?_⟩
  intro k h
  rw [show (authApply initSDK
      { token := "tok", availableLanguages := some ["EN", "en"], tabs := [], stores := [] }
    ).availableLanguageLookup = [("en", "en")] from by decide] at h
  unfold lookupA at h
  split at h
  · injection h with h2
    exact absurd h2 (by decide)
  · cases h

/-- Claim C10 (amended).  At every reachable state, `availableLanguages` is
non-empty (initialised to `["en"]`, and on every authentication set to the
server list only when non-empty, else `["en"]`), the case-insensitive lookup
is exactly the map rebuilt from it, and every entry whose lowercase form no
later entry shares is reachable through the lookup (with case-duplicate
entries only the last of each lowercase class is reachable). -/
theorem claim_C10_amended :
    (∀ s : SDK, ReachAuth s →
      s.availableLanguages ≠ [] ∧
      s.availableLanguageLookup = buildLookup s.availableLanguages) ∧
    (∀ s : SDK, ReachAuth s →
      ∀ (pre : List String) (l : String) (post : List String),
        s.availableLanguages = pre ++ l :: post →
        (∀ l2 ∈ post, jsToLower l2 ≠ jsToLower l) →
        lookupA s.availableLanguageLookup (jsToLower l) = some l) := by
  have part1 : ∀ s : SDK, ReachAuth s →
      s.availableLanguages ≠ [] ∧
      s.availableLanguageLookup = buildLookup s.availableLanguages := by
    intro s h
    induction h with
    | init => exact ⟨by decide, by decide⟩
    | auth s p _ _ =>
      have hne : (match p.availableLanguages with
          | some ls => if ls.isEmpty then ["en"] else ls
          | none => ["en"]) ≠ [] := by
        cases p.availableLanguages with
        | none => decide
        | some ls =>
          by_cases he : ls.isEmpty
          · simp [he]
          · simp only [if_neg he]
            intro h0
            rw [h0] at he
            exact he rfl
      have hgoal : (authApply s p).availableLanguages
            = (match p.availableLanguages with
               | some ls => if ls.isEmpty then ["en"] else ls
               | none => ["en"]) ∧
          (authApply s p).availableLanguageLookup
            = buildLookup (match p.availableLanguages with
               | some ls => if ls.isEmpty then ["en"] else ls
               | none => ["en"]) := by
        unfold authApply
        dsimp only
        by_cases ht : p.token = ""
        · rw [if_pos ht]
          exact ⟨rfl, rfl⟩
        · rw [if_neg ht]
          exact ⟨rfl, rfl⟩
      rw [hgoal.1, hgoal.2]
      exact ⟨hne, rfl⟩
    | resolveInit s nav _ ih =>
      have hl := resolveInitialLanguage_langs s nav
      rw [hl.1, hl.2]
      exact ih
    | applyLang s language e r _ ih =>
      cases hres : resolvedLanguage s language with
      | none =>
        rw [applyLanguage_of_none e r hres]
        exact ih
      | some x =>
        rw [applyLanguage_of_some s language x e r hres]
        by_cases hc : s.currentLanguage = x ∧ e = true
        · rw [if_pos hc]
          exact ih
        · rw [if_neg hc]
          have hq := emitContentUpdated_quiet
            (storageSet { s with currentLanguage := x } "cmscure_current_language" x)
          dsimp only
          rw [hq.2.2.1, hq.2.2.2.1]
          simpa [storageSet] using ih
    | setLang s language _ ih =>
      have hrq := refreshAutoSubscribedStarts_quietB
        (applyLanguage s language true "LanguageChanged").1
      have happ := applyLanguage_fields s language "LanguageChanged"
      show _ ∧ _
      rw [show (setLanguage s language).1 = refreshAutoSubscribedStarts
        (applyLanguage s language true "LanguageChanged").1 from rfl]
      rw [hrq.1.2.2.1, hrq.1.2.2.2.1, happ.1, happ.2]
      exact ih
    | refresh s _ ih =>
      have hrq := refreshAutoSubscribedStarts_quietB s
      rw [hrq.1.2.2.1, hrq.1.2.2.2.1]
      exact ih
    | translationOp s key tab d _ ih =>
      have hq := translationGet_quietB s key tab d
      rw [hq.1.2.2.1, hq.1.2.2.2.1]
      exact ih
    | colorOp s key d _ ih =>
      have hq := colorGet_quietB s key d
      rw [hq.1.2.2.1, hq.1.2.2.2.1]
      exact ih
    | imageOp s key d _ ih =>
      have hq := imageGet_quietB s key d
      rw [hq.1.2.2.1, hq.1.2.2.2.1]
      exact ih
    | dataStoreOp s ident _ ih =>
      have hq : QuietB s (dataStorePublic s ident).2 := by
        unfold dataStorePublic
        exact quietB_trans (by simp [QuietB, Quiet]) (dataStoreGet_quietB _ ident _)
      rw [hq.1.2.2.1, hq.1.2.2.2.1]
      exact ih
    | resolveOp s reference d _ ih =>
      have hq := resolveVal_quietB s reference d
      rw [hq.1.2.2.1, hq.1.2.2.2.1]
      exact ih
    | observeOp s reference lid d s2 inv hok _ ih =>
      have hl := observeE_ok_langs s reference lid d s2 inv hok
      rw [hl.1, hl.2]
      exact ih
    | unsubOp s normalized lid _ ih =>
      have hb : (unsubscribe s normalized lid).availableLanguages = s.availableLanguages ∧
          (unsubscribe s normalized lid).availableLanguageLookup
            = s.availableLanguageLookup := by
        unfold unsubscribe
        cases hm : lookupA s.bindingChannels normalized with
        | none => exact ⟨rfl, rfl⟩
        | some c =>
          dsimp only
          split
          · exact ⟨rfl, rfl⟩
          · exact ⟨rfl, rfl⟩
      rw [hb.1, hb.2]
      exact ih
    | notifyOp s _ ih =>
      have hq := notifyBindings_quiet s
      rw [hq.2.2.1, hq.2.2.2.1]
      exact ih
    | startTab s tab force _ ih =>
      have hq := syncTabStart_quietB s tab force
      rw [hq.1.2.2.1, hq.1.2.2.2.1]
      exact ih
    | startColors s _ ih =>
      have hq := syncColorsStart_quietB s
      rw [hq.1.2.2.1, hq.1.2.2.2.1]
      exact ih
    | startImages s _ ih =>
      have hq := syncImagesStart_quietB s
      rw [hq.1.2.2.1, hq.1.2.2.2.1]
      exact ih
    | startStore s ident force _ ih =>
      have hq := syncStoreStart_quietB s ident force
      rw [hq.1.2.2.1, hq.1.2.2.2.1]
      exact ih
    | tabDone s tab res _ ih =>
      have hl := syncTabComplete_langs s tab res
      rw [hl.1, hl.2]
      exact ih
    | colorsDone s res _ ih =>
      have hl := syncColorsComplete_langs s res
      rw [hl.1, hl.2]
      exact ih
    | imagesDone s res _ ih =>
      have hl := syncImagesComplete_langs s res
      rw [hl.1, hl.2]
      exact ih
    | storeDone s ident res _ ih =>
      have hl := syncStoreComplete_langs s ident res
      rw [hl.1, hl.2]
      exact ih
  refine ⟨part1, ?_⟩
  intro s h pre l post hsplit hpost
  have hwf := (part1 s h).2
  rw [hwf, hsplit]
  exact lookupA_buildLookup_last pre l post hpost

/-- Witness for claim C10 (amended) at the authenticated state with languages
`["EN", "en"]`: the list is non-empty, the lookup is the rebuilt one, and the
later duplicate `en` is reachable. -/
theorem claim_C10_witness :
    ((authApply initSDK
        { token := "tok", availableLanguages := some ["EN", "en"], tabs := [], stores := [] }
      ).availableLanguages ≠ [] ∧
     (authApply initSDK
        { token := "tok", availableLanguages := some ["EN", "en"], tabs := [], stores := [] }
      ).availableLanguageLookup = buildLookup ["EN", "en"]) ∧
    lookupA (authApply initSDK
        { token := "tok", availableLanguages := some ["EN", "en"], tabs := [], stores := [] }
      ).availableLanguageLookup (jsToLower "en") = some "en" := by
  have hreach : ReachAuth (authApply initSDK
      { token := "tok", availableLanguages := some ["EN", "en"], tabs := [], stores := [] }) :=
    ReachAuth.auth initSDK _ ReachAuth.init
  have h1 := claim_C10_amended.1 _ hreach
  have h2 := claim_C10_amended.2 _ hreach ["EN"] "en" []
    (by decide) (by intro l2 hl2; simp at hl2)
  exact ⟨⟨h1.1, h1.2.trans (by decide)⟩, h2⟩

/-! ### Claim C3: binding notification conditions -/

theorem quiet_dataStoreCache {a b : SDK} (h : Quiet a b) :
    b.dataStoreCache = a.dataStoreCache := h.2.2.2.2.2.2.2.2.1

theorem quiet_nextId_le {a b : SDK} (h : Quiet a b) : a.nextId ≤ b.nextId :=
  h.2.2.2.2.2.2.2.2.2.2.2.2.2.2

/-- Case equation for `notifyGo` when the head channel's re-resolved value is
identical (`Object.is`) to its stored `lastValue`: the channel is skipped. -/
theorem notifyGo_cons_skip (s : SDK) (ref : String) (ch : Channel)
    (rest : List (String × Channel))
    (h : objectIs ch.lastValue (resolveVal s ref none).1 = true) :
    notifyGo s ((ref, ch) :: rest) =
      ((ref, ch) :: (notifyGo (resolveVal s ref none).2 rest).1,
       (notifyGo (resolveVal s ref none).2 rest).2.1,
       (notifyGo (resolveVal s ref none).2 rest).2.2) := by
  conv_lhs => rw [notifyGo]
  dsimp only
  rw [if_pos h]

/-- Case equation for `notifyGo` when the head channel's re-resolved value
differs from its stored `lastValue`: every listener is notified. -/
theorem notifyGo_cons_notify (s : SDK) (ref : String) (ch : Channel)
    (rest : List (String × Channel))
    (h : objectIs ch.lastValue (resolveVal s ref none).1 = false) :
    notifyGo s ((ref, ch) :: rest) =
      ((ref, { ch with lastValue := (resolveVal s ref none).1 }) ::
         (notifyGo (resolveVal s ref none).2 rest).1,
       (notifyGo (resolveVal s ref none).2 rest).2.1,
       ch.listeners.map (fun l => (l, (resolveVal s ref none).1)) ++
         (notifyGo (resolveVal s ref none).2 rest).2.2) := by
  conv_lhs => rw [notifyGo]
  dsimp only
  rw [if_neg (by simp [h])]

/-- Soundness of the notification log: every logged invocation comes from a
channel that holds the listener and whose stored value differs from the
re-resolved one under `Object.is`. -/
theorem notifyGo_log_mem (chs : List (String × Channel)) :
    ∀ (s : SDK) (l : Nat) (v : JSVal), (l, v) ∈ (notifyGo s chs).2.2 →
      ∃ p, p ∈ chs ∧ l ∈ p.2.listeners ∧ objectIs p.2.lastValue v = false := by
  induction chs with
  | nil =>
    intro s l v h
    simp [notifyGo] at h
  | cons p rest ih =>
    obtain ⟨ref, ch⟩ := p
    intro s l v h
    by_cases hob : objectIs ch.lastValue (resolveVal s ref none).1 = true
    · rw [notifyGo_cons_skip s ref ch rest hob] at h
      obtain ⟨q, hq1, hq2, hq3⟩ := ih _ _ _ h
      exact ⟨q, List.mem_cons_of_mem _ hq1, hq2, hq3⟩
    · have hob2 : objectIs ch.lastValue (resolveVal s ref none).1 = false := by
        revert hob
        cases objectIs ch.lastValue (resolveVal s ref none).1 <;> simp
      rw [notifyGo_cons_notify s ref ch rest hob2] at h
      rcases List.mem_append.1 h with h1 | h1
      · obtain ⟨l0, hl0, heq⟩ := List.mem_map.1 h1
        injection heq with he1 he2
        subst he1
        subst he2
        exact ⟨(ref, ch), List.mem_cons_self _ _, hl0, hob2⟩
      · obtain ⟨q, hq1, hq2, hq3⟩ := ih _ _ _ h1
        exact ⟨q, List.mem_cons_of_mem _ hq1, hq2, hq3⟩

/-- On a `meta:languages` reference, `resolve` always returns a freshly
allocated array (source line 85 spreads the list into a new array). -/
theorem resolveVal_metaLanguages (s : SDK) (ref : String)
    (h : parseRef ref = RefKind.metaLanguages) :
    resolveVal s ref none =
      (JSVal.varr s.nextId s.availableLanguages, { s with nextId := s.nextId + 1 }) := by
  unfold resolveVal
  rw [h]
  rfl

/-- On a `store:x` reference with no default and a cached store, `resolve`
returns the cached array with its stored allocation identity. -/
theorem resolveVal_storeRef (s : SDK) (ref x : String) (aid : Nat)
    (items : List String) (hp : parseRef ref = RefKind.storeRef x)
    (hl : lookupA s.dataStoreCache x = some (aid, items)) :
    (resolveVal s ref none).1 = JSVal.varr aid items := by
  unfold resolveVal
  rw [hp]
  show (dataStoreGet { s with nextId := s.nextId + 1 } x (JSVal.varr s.nextId [])).1 =
    JSVal.varr aid items
  unfold dataStoreGet
  dsimp only
  rw [quiet_dataStoreCache
    (ensureStoreSubscription_quietB { s with nextId := s.nextId + 1 } x).1]
  dsimp only
  rw [hl]

/-- A `store:x` channel whose stored value carries the cached array's
allocation identity is skipped by the notification walk, whatever the
surrounding channels do. -/
theorem storeRef_unchanged_skips (chs : List (String × Channel)) :
    ∀ (s : SDK) (x : String) (aid : Nat) (items : List String) (l : Nat),
      lookupA s.dataStoreCache x = some (aid, items) →
      (∀ p, p ∈ chs →
        (parseRef p.1 = RefKind.storeRef x ∧ ∃ c0, p.2.lastValue = JSVal.varr aid c0) ∨
        l ∉ p.2.listeners) →
      ∀ v, (l, v) ∉ (notifyGo s chs).2.2 := by
  induction chs with
  | nil =>
    intro s x aid items l hds hall v h
    simp [notifyGo] at h
  | cons p rest ih =>
    obtain ⟨ref, ch⟩ := p
    intro s x aid items l hds hall v h
    have hds1 : lookupA (resolveVal s ref none).2.dataStoreCache x = some (aid, items) := by
      rw [quiet_dataStoreCache (resolveVal_quietB s ref none).1]
      exact hds
    have htail : ∀ q, q ∈ rest →
        (parseRef q.1 = RefKind.storeRef x ∧ ∃ c0, q.2.lastValue = JSVal.varr aid c0) ∨
        l ∉ q.2.listeners :=
      fun q hq => hall q (List.mem_cons_of_mem _ hq)
    rcases hall (ref, ch) (List.mem_cons_self _ _) with hmain | hnot
    · obtain ⟨hp, c0, hlast⟩ := hmain
      have hob : objectIs ch.lastValue (resolveVal s ref none).1 = true := by
        rw [resolveVal_storeRef s ref x aid items hp hds, hlast]
        simp [objectIs]
      rw [notifyGo_cons_skip s ref ch rest hob] at h
      exact ih _ x aid items l hds1 htail v h
    · by_cases hob : objectIs ch.lastValue (resolveVal s ref none).1 = true
      · rw [notifyGo_cons_skip s ref ch rest hob] at h
        exact ih _ x aid items l hds1 htail v h
      · have hob2 : objectIs ch.lastValue (resolveVal s ref none).1 = false := by
          revert hob
          cases objectIs ch.lastValue (resolveVal s ref none).1 <;> simp
        rw [notifyGo_cons_notify s ref ch rest hob2] at h
        rcases List.mem_append.1 h with h1 | h1
        · obtain ⟨l0, hl0, heq⟩ := List.mem_map.1 h1
          injection heq with he1 he2
          exact hnot (he1 ▸ hl0)
        · exact ih _ x aid items l hds1 htail v h1

/-- A `meta:languages` channel is always notified: the re-resolved value is a
fresh array, so the identity comparison with any stored array fails. -/
theorem metaLanguages_always_logged (pre : List (String × Channel)) :
    ∀ (post : List (String × Channel)) (s : SDK) (ref : String) (ch : Channel)
      (a : Nat) (c : List String) (l : Nat),
      parseRef ref = RefKind.metaLanguages →
      ch.lastValue = JSVal.varr a c →
      a < s.nextId →
      l ∈ ch.listeners →
      ∃ v, (l, v) ∈ (notifyGo s (pre ++ (ref, ch) :: post)).2.2 := by
  induction pre with
  | nil =>
    intro post s ref ch a c l hp hlast hlt hl
    have hres := resolveVal_metaLanguages s ref hp
    have hob : objectIs ch.lastValue (resolveVal s ref none).1 = false := by
      rw [hres]
      simp [hlast, objectIs, Nat.ne_of_lt hlt]
    rw [List.nil_append, notifyGo_cons_notify s ref ch post hob]
    exact ⟨(resolveVal s ref none).1,
      List.mem_append_left _ (List.mem_map.2 ⟨l, hl, rfl⟩)⟩
  | cons q pre2 ih =>
    obtain ⟨r0, c0⟩ := q
    intro post s ref ch a c l hp hlast hlt hl
    have hlt1 : a < (resolveVal s r0 none).2.nextId :=
      lt_of_lt_of_le hlt (quiet_nextId_le (resolveVal_quietB s r0 none).1)
    obtain ⟨v, hv⟩ := ih post (resolveVal s r0 none).2 ref ch a c l hp hlast hlt1 hl
    by_cases hob : objectIs c0.lastValue (resolveVal s r0 none).1 = true
    · rw [List.cons_append, notifyGo_cons_skip s r0 c0 (pre2 ++ (ref, ch) :: post) hob]
      exact ⟨v, hv⟩
    · have hob2 : objectIs c0.lastValue (resolveVal s r0 none).1 = false := by
        revert hob
        cases objectIs c0.lastValue (resolveVal s r0 none).1 <;> simp
      rw [List.cons_append, notifyGo_cons_notify s r0 c0 (pre2 ++ (ref, ch) :: post) hob2]
      exact ⟨v, List.mem_append_right _ hv⟩

/-- A configured SDK with one `meta:languages` binding channel whose stored
array already holds the contents the reference will re-resolve to. -/
def c3MetaState : SDK :=
  { initSDK with
      configSet := true
      bindingChannels :=
        [("meta:languages", { listeners := [1], lastValue := JSVal.varr 0 ["en"] })]
      nextId := 1 }

/-- An SDK holding a cached store and one `store:s1` binding channel whose
stored value is exactly the cached array. -/
def c3StoreState : SDK :=
  { initSDK with
      configSet := true
      dataStoreCache := [("s1", (0, ["rec"]))]
      knownStores := ["s1"]
      bindingChannels :=
        [("store:s1", { listeners := [2], lastValue := JSVal.varr 0 ["rec"] })]
      nextId := 1 }

/-- **Claim C3 — counterexample.**  In `c3MetaState` the sole channel observes
`meta:languages`; the stored value and the re-resolved value are both the
array `["en"]` — equal as values — yet the fan-out notifies listener 1,
because `getAvailableLanguages` allocates a fresh array on every call and
`#notifyBindings` compares with `Object.is` (reference identity), so the
claim's "channels whose resolved value is unchanged (including `meta:languages`)
deliver no notification" fails. -/
theorem claim_C3_counterexample :
    c3MetaState.bindingChannels =
      [("meta:languages", { listeners := [1], lastValue := JSVal.varr 0 ["en"] })] ∧
    (resolveVal c3MetaState "meta:languages" none).1 = JSVal.varr 1 ["en"] ∧
    (notifyBindings c3MetaState).2 = [(1, JSVal.varr 1 ["en"])] :=
  ⟨rfl, by decide, by decide⟩

/-- **Claim C3 — amended.**  (A) Soundness: every delivered notification comes
from a channel holding that listener whose re-resolved value differs from its
`lastValue` under `Object.is`.  (B) A `store:x` channel whose stored array is
the cached one (same allocation identity) is skipped, so unchanged store
references deliver no notification.  (C) The comparison is identity, not value:
a `meta:languages` channel whose stored array predates the fan-out is notified
on every fan-out, even when the language list's contents are unchanged. -/
theorem claim_C3_amended :
    (∀ (s : SDK) (l : Nat) (v : JSVal), (l, v) ∈ (notifyBindings s).2 →
      ∃ p, p ∈ s.bindingChannels ∧ l ∈ p.2.listeners ∧
        objectIs p.2.lastValue v = false) ∧
    (∀ (s : SDK) (x : String) (aid : Nat) (items : List String) (l : Nat),
      lookupA s.dataStoreCache x = some (aid, items) →
      (∀ p, p ∈ s.bindingChannels →
        (parseRef p.1 = RefKind.storeRef x ∧ ∃ c0, p.2.lastValue = JSVal.varr aid c0) ∨
        l ∉ p.2.listeners) →
      ∀ v, (l, v) ∉ (notifyBindings s).2) ∧
    (∀ (s : SDK) (pre post : List (String × Channel)) (ref : String) (ch : Channel)
      (a : Nat) (c : List String) (l : Nat),
      s.bindingChannels = pre ++ (ref, ch) :: post →
      parseRef ref = RefKind.metaLanguages →
      ch.lastValue = JSVal.varr a c →
      a < s.nextId →
      l ∈ ch.listeners →
      ∃ v, (l, v) ∈ (notifyBindings s).2) := by
  refine ⟨?_, ?_, ?_⟩
  · intro s l v h
    exact notifyGo_log_mem s.bindingChannels s l v h
  · intro s x aid items l hds hall v h
    exact storeRef_unchanged_skips s.bindingChannels s x aid items l hds hall v h
  · intro s pre post ref ch a c l hbc hp hlast hlt hl
    have h2 := metaLanguages_always_logged pre post s ref ch a c l hp hlast hlt hl
    show ∃ v, (l, v) ∈ (notifyGo s s.bindingChannels).2.2
    rw [hbc]
    exact h2

/-- Instantiation of the three parts of the amended C3 theorem on the concrete
states: the unchanged store channel is silent, the `meta:languages` channel is
notified, and the delivered notification traces back to a differing channel. -/
theorem claim_C3_witness :
    ((2 : Nat), JSVal.vnull) ∉ (notifyBindings c3StoreState).2 ∧
    (∃ v, ((1 : Nat), v) ∈ (notifyBindings c3MetaState).2) ∧
    (∃ p, p ∈ c3MetaState.bindingChannels ∧ (1 : Nat) ∈ p.2.listeners ∧
      objectIs p.2.lastValue (JSVal.varr 1 ["en"]) = false) := by
  refine ⟨?_, ?_, ?_⟩
  · exact claim_C3_amended.2.1 c3StoreState "s1" 0 ["rec"] 2 (by decide)
      (by
        intro p hp
        have hp2 : p = ("store:s1",
            ({ listeners := [2], lastValue := JSVal.varr 0 ["rec"] } : Channel)) := by
          have hm : p ∈ [("store:s1",
              ({ listeners := [2], lastValue := JSVal.varr 0 ["rec"] } : Channel))] := hp
          exact List.mem_singleton.1 hm
        subst hp2
        exact Or.inl ⟨by decide, ⟨["rec"], rfl⟩⟩)
      JSVal.vnull
  · exact claim_C3_amended.2.2 c3MetaState [] []
      "meta:languages" { listeners := [1], lastValue := JSVal.varr 0 ["en"] }
      0 ["en"] 1 rfl (by decide) rfl (by decide) (by decide)
  · exact claim_C3_amended.1 c3MetaState 1 (JSVal.varr 1 ["en"]) (by decide)


/-! ### Claim C8: observe and unsubscribe -/

theorem lookupA_some_mem {κ α : Type} [DecidableEq κ] (m : List (κ × α)) (k : κ) (v : α)
    (h : lookupA m k = some v) : (k, v) ∈ m := by
  induction m with
  | nil => simp [lookupA] at h
  | cons p rest ih =>
    obtain ⟨k0, v0⟩ := p
    by_cases h0 : k0 = k
    · subst h0
      simp only [lookupA, if_pos rfl] at h
      injection h with hv
      subst hv
      exact List.mem_cons_self _ _
    · simp only [lookupA, if_neg h0] at h
      exact List.mem_cons_of_mem _ (ih h)

theorem lookupA_none_forall {κ α : Type} [DecidableEq κ] (m : List (κ × α)) (k : κ)
    (h : lookupA m k = none) : ∀ p, p ∈ m → p.1 ≠ k := by
  induction m with
  | nil =>
    intro p hp
    simp at hp
  | cons q rest ih =>
    obtain ⟨k0, v0⟩ := q
    intro p hp
    by_cases h0 : k0 = k
    · simp [lookupA, h0] at h
    · simp only [lookupA, if_neg h0] at h
      rcases List.mem_cons.1 hp with h1 | h1
      · subst h1
        exact h0
      · exact ih h p h1

theorem mem_assocErase {κ α : Type} [DecidableEq κ] (m : List (κ × α)) (k : κ)
    (p : κ × α) (h : p ∈ assocErase m k) : p ∈ m := by
  induction m with
  | nil => simp [assocErase] at h
  | cons q rest ih =>
    obtain ⟨k0, v0⟩ := q
    by_cases h0 : k0 = k
    · simp only [assocErase, if_pos h0] at h
      exact List.mem_cons_of_mem _ h
    · simp only [assocErase, if_neg h0] at h
      rcases List.mem_cons.1 h with h1 | h1
      · exact h1 ▸ List.mem_cons_self _ _
      · exact List.mem_cons_of_mem _ (ih h1)

theorem mem_assocErase_key_ne {κ α : Type} [DecidableEq κ] (m : List (κ × α)) (k : κ)
    (hnd : (m.map Prod.fst).Nodup) (p : κ × α) (h : p ∈ assocErase m k) : p.1 ≠ k := by
  induction m with
  | nil => simp [assocErase] at h
  | cons q rest ih =>
    obtain ⟨k0, v0⟩ := q
    simp only [List.map_cons, List.nodup_cons] at hnd
    by_cases h0 : k0 = k
    · subst h0
      simp only [assocErase, if_pos rfl] at h
      intro hk
      exact hnd.1 (List.mem_map.2 ⟨p, h, hk⟩)
    · simp only [assocErase, if_neg h0] at h
      rcases List.mem_cons.1 h with h1 | h1
      · subst h1
        exact h0
      · exact ih hnd.2 h1

theorem mem_assocSet_cases {κ α : Type} [DecidableEq κ] (m : List (κ × α)) (k : κ) (v : α)
    (hnd : (m.map Prod.fst).Nodup) (p : κ × α) (h : p ∈ assocSet m k v) :
    p = (k, v) ∨ (p ∈ m ∧ p.1 ≠ k) := by
  induction m with
  | nil =>
    simp only [assocSet] at h
    rcases List.mem_cons.1 h with h1 | h1
    · exact Or.inl h1
    · simp at h1
  | cons q rest ih =>
    obtain ⟨k0, v0⟩ := q
    simp only [List.map_cons, List.nodup_cons] at hnd
    by_cases h0 : k0 = k
    · subst h0
      simp only [assocSet, if_pos rfl] at h
      rcases List.mem_cons.1 h with h1 | h1
      · exact Or.inl h1
      · refine Or.inr ⟨List.mem_cons_of_mem _ h1, ?_⟩
        intro hk
        exact hnd.1 (List.mem_map.2 ⟨p, h1, hk⟩)
    · simp only [assocSet, if_neg h0] at h
      rcases List.mem_cons.1 h with h1 | h1
      · subst h1
        exact Or.inr ⟨List.mem_cons_self _ _, h0⟩
      · rcases ih hnd.2 h1 with h2 | h2
        · exact Or.inl h2
        · exact Or.inr ⟨List.mem_cons_of_mem _ h2.1, h2.2⟩

theorem not_mem_eraseA_self {α : Type} [DecidableEq α] (l : List α) (x : α)
    (hnd : l.Nodup) : x ∉ eraseA l x := by
  induction l with
  | nil => simp [eraseA]
  | cons a rest ih =>
    simp only [List.nodup_cons] at hnd
    by_cases ha : a = x
    · simp only [eraseA, if_pos ha]
      exact fun hx => hnd.1 (ha.symm ▸ hx)
    · simp only [eraseA, if_neg ha]
      intro hx
      rcases List.mem_cons.1 hx with h1 | h1
      · exact ha h1.symm
      · exact ih hnd.2 h1

theorem lookupA_assocErase_self {κ α : Type} [DecidableEq κ] (m : List (κ × α)) (k : κ)
    (hnd : (m.map Prod.fst).Nodup) : lookupA (assocErase m k) k = none := by
  cases h : lookupA (assocErase m k) k with
  | none => rfl
  | some v =>
    exact absurd rfl (mem_assocErase_key_ne m k hnd (k, v) (lookupA_some_mem _ _ _ h))

/-- `observe` on a reference with no existing channel: a fresh channel is
created whose `lastValue` is the freshly resolved value, and the one
synchronous invocation delivers exactly that value. -/
theorem observeE_fresh (s : SDK) (ref : String) (lid : Nat) (d : Option JSVal)
    (hne : jsTrim ref ≠ "") (hm : lookupA s.bindingChannels (jsTrim ref) = none) :
    observeE s ref lid d = Except.ok
      ({ (resolveVal s (jsTrim ref) d).2 with
          bindingChannels := assocSet (resolveVal s (jsTrim ref) d).2.bindingChannels
            (jsTrim ref)
            { listeners := insertA [] lid,
              lastValue := (resolveVal s (jsTrim ref) d).1 } },
       lid, (resolveVal s (jsTrim ref) d).1) := by
  unfold observeE
  dsimp only
  rw [if_neg hne, hm]

/-- `observe` on a reference that already has a channel: the listener joins the
channel and the one synchronous invocation delivers the channel's *stored*
`lastValue`, not a freshly resolved value (source line 189). -/
theorem observeE_existing (s : SDK) (ref : String) (lid : Nat) (d : Option JSVal)
    (c : Channel) (hne : jsTrim ref ≠ "")
    (hm : lookupA s.bindingChannels (jsTrim ref) = some c) :
    observeE s ref lid d = Except.ok
      ({ s with bindingChannels :=
          assocSet s.bindingChannels (jsTrim ref) { c with listeners := insertA c.listeners lid } },
       lid, c.lastValue) := by
  unfold observeE
  dsimp only
  rw [if_neg hne, hm]

/-- When the departing listener is the channel's sole listener, the channel is
deleted (source lines 195-199). -/
theorem unsubscribe_last_deletes (s : SDK) (nref : String) (lid : Nat) (c : Channel)
    (hnd : (s.bindingChannels.map Prod.fst).Nodup)
    (hm : lookupA s.bindingChannels nref = some c)
    (hone : c.listeners = [lid]) :
    lookupA (unsubscribe s nref lid).bindingChannels nref = none := by
  have he : eraseA c.listeners lid = [] := by
    rw [hone]
    simp [eraseA]
  unfold unsubscribe
  rw [hm]
  dsimp only
  rw [if_pos he]
  exact lookupA_assocErase_self s.bindingChannels nref hnd

/-- After `unsubscribe`, the departing listener is registered on no channel,
provided channel keys are unique, listener sets are duplicate-free, and the
listener was only registered on the named channel. -/
theorem unsubscribe_removes_listener (s : SDK) (nref : String) (lid : Nat)
    (hnd : (s.bindingChannels.map Prod.fst).Nodup)
    (hln : ∀ p, p ∈ s.bindingChannels → p.2.listeners.Nodup)
    (hother : ∀ p, p ∈ s.bindingChannels → p.1 = nref ∨ lid ∉ p.2.listeners) :
    ∀ p, p ∈ (unsubscribe s nref lid).bindingChannels → lid ∉ p.2.listeners := by
  intro p hp
  unfold unsubscribe at hp
  cases hm : lookupA s.bindingChannels nref with
  | none =>
    rw [hm] at hp
    dsimp only at hp
    rcases hother p hp with h1 | h1
    · exact absurd h1 (lookupA_none_forall s.bindingChannels nref hm p hp)
    · exact h1
  | some c =>
    rw [hm] at hp
    dsimp only at hp
    by_cases he : eraseA c.listeners lid = []
    · rw [if_pos he] at hp
      dsimp only at hp
      have hkey := mem_assocErase_key_ne s.bindingChannels nref hnd p hp
      have hpm := mem_assocErase s.bindingChannels nref p hp
      rcases hother p hpm with h1 | h1
      · exact absurd h1 hkey
      · exact h1
    · rw [if_neg he] at hp
      dsimp only at hp
      rcases mem_assocSet_cases s.bindingChannels nref _ hnd p hp with h1 | h1
      · subst h1
        exact not_mem_eraseA_self c.listeners lid
          (hln (nref, c) (lookupA_some_mem _ _ _ hm))
      · rcases hother p h1.1 with h3 | h3
        · exact absurd h3 h1.2
        · exact h3

/-- A configured SDK with no binding channels yet. -/
def obsStateA : SDK := { initSDK with configSet := true }

/-- `obsStateA` after `observe('color:missing', listener 1, { default: '#fff' })`:
one channel on `color:missing` with `lastValue = '#fff'`. -/
def obsStateB : SDK :=
  match observeE obsStateA "color:missing" 1 (some (JSVal.vstr "#fff")) with
  | Except.ok r => r.1
  | Except.error _ => obsStateA

/-- **Claim C8 — counterexample.**  A second `observe` on an existing channel
invokes its listener with the channel's stored `lastValue`, which need not be
the currently resolved value: after listener 1 observes `color:missing` with
default `'#fff'`, listener 2 (no default) is synchronously invoked with
`'#fff'`, while the reference currently resolves to `null` — the claim's
"invokes the listener synchronously at least once with the currently resolved
value" fails. -/
theorem claim_C8_counterexample :
    (match observeE obsStateB "color:missing" 2 none with
     | Except.ok r => some r.2.2
     | Except.error _ => none) = some (JSVal.vstr "#fff") ∧
    (resolveVal obsStateB "color:missing" none).1 = JSVal.vnull ∧
    JSVal.vstr "#fff" ≠ JSVal.vnull :=
  ⟨by decide, by decide, by decide⟩

/-- **Claim C8 — amended.**  (a) On a fresh reference, `observe` invokes the
listener synchronously exactly once with the freshly resolved value.  (b) On a
reference that already has a channel, the single synchronous invocation
delivers the channel's stored `lastValue` (possibly stale), not a freshly
resolved value.  (c) When the sole listener of a channel unsubscribes, the
channel is deleted.  (d) After unsubscribing, a listener registered nowhere
else receives no further invocations from any content-changed fan-out. -/
theorem claim_C8_amended :
    (∀ (s : SDK) (ref : String) (lid : Nat) (d : Option JSVal),
      jsTrim ref ≠ "" →
      lookupA s.bindingChannels (jsTrim ref) = none →
      observeE s ref lid d = Except.ok
        ({ (resolveVal s (jsTrim ref) d).2 with
            bindingChannels := assocSet (resolveVal s (jsTrim ref) d).2.bindingChannels
              (jsTrim ref)
              { listeners := insertA [] lid,
                lastValue := (resolveVal s (jsTrim ref) d).1 } },
         lid, (resolveVal s (jsTrim ref) d).1)) ∧
    (∀ (s : SDK) (ref : String) (lid : Nat) (d : Option JSVal) (c : Channel),
      jsTrim ref ≠ "" →
      lookupA s.bindingChannels (jsTrim ref) = some c →
      observeE s ref lid d = Except.ok
        ({ s with bindingChannels :=
            assocSet s.bindingChannels (jsTrim ref) { c with listeners := insertA c.listeners lid } },
         lid, c.lastValue)) ∧
    (∀ (s : SDK) (nref : String) (lid : Nat) (c : Channel),
      (s.bindingChannels.map Prod.fst).Nodup →
      lookupA s.bindingChannels nref = some c →
      c.listeners = [lid] →
      lookupA (unsubscribe s nref lid).bindingChannels nref = none) ∧
    (∀ (s : SDK) (nref : String) (lid : Nat),
      (s.bindingChannels.map Prod.fst).Nodup →
      (∀ p, p ∈ s.bindingChannels → p.2.listeners.Nodup) →
      (∀ p, p ∈ s.bindingChannels → p.1 = nref ∨ lid ∉ p.2.listeners) →
      ∀ v, (lid, v) ∉ (notifyBindings (unsubscribe s nref lid)).2) := by
  refine ⟨?_, ?_, ?_, ?_⟩
  · intro s ref lid d hne hm
    exact observeE_fresh s ref lid d hne hm
  · intro s ref lid d c hne hm
    exact observeE_existing s ref lid d c hne hm
  · intro s nref lid c hnd hm hone
    exact unsubscribe_last_deletes s nref lid c hnd hm hone
  · intro s nref lid hnd hln hother v hv
    obtain ⟨p, hp, hl, _⟩ := notifyGo_log_mem (unsubscribe s nref lid).bindingChannels
      (unsubscribe s nref lid) lid v hv
    exact unsubscribe_removes_listener s nref lid hnd hln hother p hp hl

/-- Instantiation of the four parts of the amended C8 theorem: the first
`observe` delivers the freshly resolved value, the second delivers the stored
one, unsubscribing the sole remaining listener deletes the channel, and the
departed listener appears in no later fan-out log. -/
theorem claim_C8_witness :
    (∃ r, observeE obsStateA "color:missing" 1 (some (JSVal.vstr "#fff")) = Except.ok r ∧
      r.2.2 = (resolveVal obsStateA "color:missing" (some (JSVal.vstr "#fff"))).1) ∧
    (∃ r, observeE obsStateB "color:missing" 2 none = Except.ok r ∧
      r.2.2 = JSVal.vstr "#fff") ∧
    lookupA (unsubscribe obsStateB "color:missing" 1).bindingChannels "color:missing" =
      none ∧
    ((1 : Nat), JSVal.vnull) ∉ (notifyBindings (unsubscribe obsStateB "color:missing" 1)).2 := by
  refine ⟨?_, ?_, ?_, ?_⟩
  · exact ⟨_, claim_C8_amended.1 obsStateA "color:missing" 1 (some (JSVal.vstr "#fff"))
      (by decide) (by decide), rfl⟩
  · exact ⟨_, claim_C8_amended.2.1 obsStateB "color:missing" 2 none
      { listeners := [1], lastValue := JSVal.vstr "#fff" } (by decide) (by decide), rfl⟩
  · exact claim_C8_amended.2.2.1 obsStateB "color:missing" 1
      { listeners := [1], lastValue := JSVal.vstr "#fff" } (by decide) (by decide) (by decide)
  · exact claim_C8_amended.2.2.2 obsStateB "color:missing" 1
      (by decide) (by decide) (by decide) JSVal.vnull


/-! ### Claim C4: one outstanding fetch per tab

The `pendingTabFetches` field instruments the outstanding tab fetches (one
entry per issued, not yet completed request); no modeled function reads it.
The invariant below says each tab has at most one outstanding fetch and that
an outstanding fetch implies the in-flight marker, so the non-forced dedup
guard of `#syncTab` blocks any further start. -/

/-- At most one outstanding fetch per tab, and a tab with an outstanding fetch
carries the `#syncingTabs` in-flight marker. -/
def WInv (s : SDK) : Prop :=
  ∀ t, countA s.pendingTabFetches t ≤ 1 ∧
    (countA s.pendingTabFetches t = 1 → t ∈ s.syncingTabs)

/-- One step of the non-forced query layer: it preserves the invariant, never
removes an in-flight marker, and starts no fetch for a tab already marked. -/
def QStep (s s2 : SDK) : Prop :=
  (WInv s → WInv s2) ∧
  ∀ u, u ∈ s.syncingTabs →
    u ∈ s2.syncingTabs ∧ countA s2.pendingTabFetches u = countA s.pendingTabFetches u

theorem qstep_rfl (s : SDK) : QStep s s := ⟨fun h => h, fun _ hu => ⟨hu, rfl⟩⟩

theorem qstep_trans {a b c : SDK} (h1 : QStep a b) (h2 : QStep b c) : QStep a c :=
  ⟨fun h => h2.1 (h1.1 h), fun u hu =>
    ⟨(h2.2 u (h1.2 u hu).1).1, ((h2.2 u (h1.2 u hu).1).2).trans (h1.2 u hu).2⟩⟩

theorem qstep_of_proj {a b : SDK} (h1 : b.syncingTabs = a.syncingTabs)
    (h2 : b.pendingTabFetches = a.pendingTabFetches) : QStep a b := by
  constructor
  · intro h t
    rw [h1, h2]
    exact h t
  · intro u hu
    rw [h1, h2]
    exact ⟨hu, rfl⟩

theorem qstep_syncTabStart (s : SDK) (tab : String) :
    QStep s (syncTabStart s tab false) := by
  unfold syncTabStart
  by_cases h1 : s.configSet = false
  · rw [if_pos h1]
    exact qstep_rfl s
  · rw [if_neg h1]
    by_cases h2 : tab ∈ s.syncingTabs ∧ false = false
    · rw [if_pos h2]
      exact qstep_rfl s
    · rw [if_neg h2]
      have hnot : tab ∉ s.syncingTabs := fun hm => h2 ⟨hm, rfl⟩
      constructor
      · intro h t
        by_cases ht : t = tab
        · subst ht
          have hz : countA s.pendingTabFetches t = 0 := by
            rcases Nat.lt_or_ge (countA s.pendingTabFetches t) 1 with hlt | hge
            · omega
            · exact absurd ((h t).2 (le_antisymm (h t).1 hge)) hnot
          constructor
          · show countA (t :: s.pendingTabFetches) t ≤ 1
            simp [countA, hz]
          · intro _
            show t ∈ insertA s.syncingTabs t
            exact self_mem_insertA _ _
        · have hne : tab ≠ t := fun hh => ht hh.symm
          have hc : countA (tab :: s.pendingTabFetches) t = countA s.pendingTabFetches t := by
            simp [countA, hne]
          constructor
          · show countA (tab :: s.pendingTabFetches) t ≤ 1
            rw [hc]
            exact (h t).1
          · intro h1c
            show t ∈ insertA s.syncingTabs tab
            have h1d : countA (tab :: s.pendingTabFetches) t = 1 := h1c
            rw [hc] at h1d
            exact (mem_insertA _ _ _).2 (Or.inl ((h t).2 h1d))
      · intro u hu
        have hne : tab ≠ u := fun hh => hnot (hh ▸ hu)
        constructor
        · show u ∈ insertA s.syncingTabs tab
          exact (mem_insertA _ _ _).2 (Or.inl hu)
        · show countA (tab :: s.pendingTabFetches) u = countA s.pendingTabFetches u
          simp [countA, hne]

theorem qstep_syncColorsStart (s : SDK) : QStep s (syncColorsStart s) := by
  unfold syncColorsStart
  split
  · exact qstep_rfl s
  split
  · exact qstep_rfl s
  · exact qstep_of_proj rfl rfl

theorem qstep_syncImagesStart (s : SDK) : QStep s (syncImagesStart s) := by
  unfold syncImagesStart
  split
  · exact qstep_rfl s
  split
  · exact qstep_rfl s
  · exact qstep_of_proj rfl rfl

theorem qstep_syncStoreStart (s : SDK) (ident : String) (force : Bool) :
    QStep s (syncStoreStart s ident force) := by
  unfold syncStoreStart
  split
  · exact qstep_rfl s
  split
  · exact qstep_rfl s
  · exact qstep_of_proj rfl rfl

theorem qstep_ensureTabSubscription (s : SDK) (tab : String) :
    QStep s (ensureTabSubscription s tab) := by
  unfold ensureTabSubscription
  split
  · exact qstep_rfl s
  split
  · exact qstep_rfl s
  · exact qstep_trans (qstep_of_proj rfl rfl)
      (qstep_syncTabStart { s with autoSubscribedTabs := insertA s.autoSubscribedTabs tab } tab)

theorem qstep_ensureColorsSubscription (s : SDK) : QStep s (ensureColorsSubscription s) := by
  unfold ensureColorsSubscription
  split
  · exact qstep_rfl s
  · exact qstep_trans (qstep_of_proj rfl rfl)
      (qstep_syncColorsStart { s with autoSubscribedColors := true })

theorem qstep_ensureImagesSubscription (s : SDK) : QStep s (ensureImagesSubscription s) := by
  unfold ensureImagesSubscription
  split
  · exact qstep_rfl s
  · exact qstep_trans (qstep_of_proj rfl rfl)
      (qstep_syncImagesStart { s with autoSubscribedImages := true })

theorem qstep_ensureStoreSubscription (s : SDK) (ident : String) :
    QStep s (ensureStoreSubscription s ident) := by
  unfold ensureStoreSubscription
  split
  · exact qstep_rfl s
  split
  · exact qstep_rfl s
  · exact qstep_trans (qstep_of_proj rfl rfl)
      (qstep_syncStoreStart
        { s with autoSubscribedStores := insertA s.autoSubscribedStores ident } ident false)

theorem qstep_translationGet (s : SDK) (key tab : String) (d : Option String) :
    QStep s (translationGet s key tab d).2 := by
  have h : (translationGet s key tab d).2 =
      (if jsTruthy (translationLookup (ensureTabSubscription s tab) tab key)
       then ensureTabSubscription s tab
       else syncTabStart (ensureTabSubscription s tab) tab false) := rfl
  rw [h]
  split
  · exact qstep_ensureTabSubscription s tab
  · exact qstep_trans (qstep_ensureTabSubscription s tab) (qstep_syncTabStart _ tab)

theorem qstep_colorGet (s : SDK) (key : String) (d : JSVal) : QStep s (colorGet s key d).2 := by
  have h : (colorGet s key d).2 =
      (if jsTruthy (colorValue ((ensureColorsSubscription s).colorsCache.bind
          fun m => lookupA m key))
       then ensureColorsSubscription s
       else syncColorsStart (ensureColorsSubscription s)) := rfl
  rw [h]
  split
  · exact qstep_ensureColorsSubscription s
  · exact qstep_trans (qstep_ensureColorsSubscription s) (qstep_syncColorsStart _)

theorem qstep_imageGet (s : SDK) (key : String) (d : JSVal) : QStep s (imageGet s key d).2 := by
  have h : (imageGet s key d).2 =
      (if jsTruthy (jsOr ((ensureImagesSubscription s).imagesCache.bind
          fun m => lookupA m key) none)
       then ensureImagesSubscription s
       else syncImagesStart (ensureImagesSubscription s)) := rfl
  rw [h]
  split
  · exact qstep_ensureImagesSubscription s
  · exact qstep_trans (qstep_ensureImagesSubscription s) (qstep_syncImagesStart _)

theorem qstep_dataStoreGet (s : SDK) (ident : String) (fb : JSVal) :
    QStep s (dataStoreGet s ident fb).2 := by
  have h : (dataStoreGet s ident fb).2 = ensureStoreSubscription s ident := rfl
  rw [h]
  exact qstep_ensureStoreSubscription s ident

theorem qstep_dataStorePublic (s : SDK) (ident : String) :
    QStep s (dataStorePublic s ident).2 := by
  unfold dataStorePublic
  have hstep : QStep s { s with nextId := s.nextId + 1 } := qstep_of_proj rfl rfl
  exact qstep_trans hstep (qstep_dataStoreGet _ ident _)

theorem qstep_resolveVal (s : SDK) (reference : String) (d : Option JSVal) :
    QStep s (resolveVal s reference d).2 := by
  unfold resolveVal
  cases parseRef reference with
  | invalid => exact qstep_rfl s
  | colorRef key => exact qstep_colorGet s key _
  | imageRef key => exact qstep_imageGet s key _
  | storeRef ident =>
    have hstep : QStep s { s with nextId := s.nextId + 1 } := qstep_of_proj rfl rfl
    cases d with
    | none => exact qstep_trans hstep (qstep_dataStoreGet _ ident _)
    | some v =>
      cases v with
      | vnull => exact qstep_trans hstep (qstep_dataStoreGet _ ident _)
      | vstr x => exact qstep_trans hstep (qstep_dataStoreGet _ ident _)
      | varr aid items => exact qstep_dataStoreGet s ident _
  | metaLanguage => exact qstep_rfl s
  | metaLanguages => exact qstep_of_proj rfl rfl
  | metaAuthToken => exact qstep_rfl s
  | metaOther => exact qstep_rfl s
  | tabEmpty pfx => exact qstep_rfl s
  | tabKey tab key =>
    cases d with
    | none => exact qstep_translationGet s key tab none
    | some v =>
      cases v with
      | vnull => exact qstep_translationGet s key tab none
      | vstr x => exact qstep_translationGet s key tab (some x)
      | varr aid items => exact qstep_translationGet s key tab none

theorem qstep_notifyGo (chs : List (String × Channel)) (s : SDK) :
    QStep s (notifyGo s chs).2.1 := by
  induction chs generalizing s with
  | nil => exact qstep_rfl s
  | cons p rest ih =>
    obtain ⟨ref, ch⟩ := p
    have h : (notifyGo s ((ref, ch) :: rest)).2.1 =
        (notifyGo (resolveVal s ref none).2 rest).2.1 := by
      conv_lhs => rw [notifyGo]
      dsimp only
      split <;> rfl
    rw [h]
    exact qstep_trans (qstep_resolveVal s ref none) (ih _)

theorem qstep_notifyBindings (s : SDK) : QStep s (notifyBindings s).1 :=
  qstep_trans (qstep_notifyGo s.bindingChannels s) (qstep_of_proj rfl rfl)

theorem qstep_emitContentUpdated (s : SDK) : QStep s (emitContentUpdated s) :=
  qstep_notifyBindings s

theorem qstep_applyLanguage (s : SDK) (language : String) (e : Bool) (r : String) :
    QStep s (applyLanguage s language e r).1 := by
  cases hres : resolvedLanguage s language with
  | none =>
    rw [applyLanguage_of_none e r hres]
    exact qstep_rfl s
  | some x =>
    rw [applyLanguage_of_some s language x e r hres]
    by_cases hc : s.currentLanguage = x ∧ e = true
    · rw [if_pos hc]
      exact qstep_rfl s
    · rw [if_neg hc]
      exact qstep_trans (qstep_of_proj rfl rfl)
        (qstep_emitContentUpdated (storageSet { s with currentLanguage := x }
          "cmscure_current_language" x))

theorem qstep_foldl_syncTabStart (l : List String) (s : SDK) :
    QStep s (l.foldl (fun a t => syncTabStart a t false) s) := by
  induction l generalizing s with
  | nil => exact qstep_rfl s
  | cons t rest ih => exact qstep_trans (qstep_syncTabStart s t) (ih _)

theorem qstep_foldl_syncStoreStart (l : List String) (s : SDK) :
    QStep s (l.foldl (fun a i => syncStoreStart a i false) s) := by
  induction l generalizing s with
  | nil => exact qstep_rfl s
  | cons i rest ih => exact qstep_trans (qstep_syncStoreStart s i false) (ih _)

theorem qstep_refreshAutoSubscribedStarts (s : SDK) :
    QStep s (refreshAutoSubscribedStarts s) := by
  have h2 : ∀ a : SDK, QStep a (if a.autoSubscribedColors then syncColorsStart a else a) := by
    intro a
    split
    · exact qstep_syncColorsStart a
    · exact qstep_rfl a
  have h3 : ∀ a : SDK, QStep a (if a.autoSubscribedImages then syncImagesStart a else a) := by
    intro a
    split
    · exact qstep_syncImagesStart a
    · exact qstep_rfl a
  unfold refreshAutoSubscribedStarts
  exact qstep_trans (qstep_foldl_syncTabStart s.autoSubscribedTabs s)
    (qstep_trans (h2 _) (qstep_trans (h3 _) (qstep_foldl_syncStoreStart s.autoSubscribedStores _)))

theorem qstep_setLanguage (s : SDK) (language : String) :
    QStep s (setLanguage s language).1 := by
  unfold setLanguage
  exact qstep_trans (qstep_applyLanguage s language true "LanguageChanged")
    (qstep_refreshAutoSubscribedStarts _)

theorem qstep_resolveInitialLanguage (s : SDK) (navLangs : List String) :
    QStep s (resolveInitialLanguage s navLangs).1 := by
  unfold resolveInitialLanguage
  split
  · exact qstep_rfl s
  · split
    · split
      · exact qstep_rfl s
      · exact qstep_trans (qstep_of_proj rfl rfl)
          (qstep_trans (qstep_applyLanguage { s with autoLanguageResolved := true } _
            true "InitialLanguageResolved")
            (qstep_refreshAutoSubscribedStarts _))
    · exact qstep_rfl s

theorem qstep_observeE (s : SDK) (reference : String) (lid : Nat) (d : Option JSVal)
    (s2 : SDK) (l : Nat) (v : JSVal)
    (h : observeE s reference lid d = Except.ok (s2, l, v)) : QStep s s2 := by
  unfold observeE at h
  dsimp only at h
  by_cases hne : jsTrim reference = ""
  · rw [if_pos hne] at h
    exact Except.noConfusion h
  · rw [if_neg hne] at h
    cases hm : lookupA s.bindingChannels (jsTrim reference) with
    | some c =>
      rw [hm] at h
      dsimp only at h
      injection h with h2
      injection h2 with ha hb
      rw [← ha]
      exact qstep_of_proj rfl rfl
    | none =>
      rw [hm] at h
      dsimp only at h
      injection h with h2
      injection h2 with ha hb
      rw [← ha]
      exact qstep_trans (qstep_resolveVal s (jsTrim reference) d) (qstep_of_proj rfl rfl)

theorem qstep_unsubscribe (s : SDK) (nref : String) (lid : Nat) :
    QStep s (unsubscribe s nref lid) := by
  unfold unsubscribe
  split
  · exact qstep_rfl s
  · dsimp only
    split
    · exact qstep_of_proj rfl rfl
    · exact qstep_of_proj rfl rfl

theorem qstep_colorsPhaseState (s : SDK) (body : ColorBody) :
    QStep s (emitContentUpdated { s with colorsCache := some (buildColorMap body)
                                         autoSubscribedColors := true }) := by
  have hstep : QStep s { s with colorsCache := some (buildColorMap body)
                                autoSubscribedColors := true } := qstep_of_proj rfl rfl
  exact qstep_trans hstep (qstep_emitContentUpdated _)

theorem qstep_imagesPhaseState (s : SDK) (body : ImageBody) :
    QStep s (emitContentUpdated { s with imagesCache := some (buildImageMap body)
                                         autoSubscribedImages := true }) := by
  have hstep : QStep s { s with imagesCache := some (buildImageMap body)
                                autoSubscribedImages := true } := qstep_of_proj rfl rfl
  exact qstep_trans hstep (qstep_emitContentUpdated _)

theorem qstep_storePhaseState (s : SDK) (ident : String) (body : StoreBody) :
    QStep s (emitContentUpdated
      { s with dataStoreCache := assocSet s.dataStoreCache ident (s.nextId, body)
               nextId := s.nextId + 1
               knownStores := insertA s.knownStores ident
               autoSubscribedStores := insertA s.autoSubscribedStores ident }) := by
  have hstep : QStep s
      { s with dataStoreCache := assocSet s.dataStoreCache ident (s.nextId, body)
               nextId := s.nextId + 1
               knownStores := insertA s.knownStores ident
               autoSubscribedStores := insertA s.autoSubscribedStores ident } :=
    qstep_of_proj rfl rfl
  exact qstep_trans hstep (qstep_emitContentUpdated _)

theorem qstep_tabPhaseState (s : SDK) (tab : String) (body : TabBody) :
    QStep s (emitContentUpdated { s with cache := assocSet s.cache tab (buildKeyMap body)
                                         knownTabs := insertA s.knownTabs tab }) := by
  have hstep : QStep s { s with cache := assocSet s.cache tab (buildKeyMap body)
                                knownTabs := insertA s.knownTabs tab } := qstep_of_proj rfl rfl
  exact qstep_trans hstep (qstep_emitContentUpdated _)

theorem qstep_syncColorsComplete (s : SDK) (res : Fetch ColorBody) :
    QStep s (syncColorsComplete s res) := by
  have hgen : ∀ m : SDK, QStep s m → QStep s { m with colorsSyncInFlight := false } :=
    fun m hm => qstep_trans hm (qstep_of_proj rfl rfl)
  unfold syncColorsComplete
  dsimp only
  apply hgen
  unfold syncColorsFetchPhase
  cases res with
  | netError => exact qstep_rfl s
  | resp status body =>
    dsimp only
    by_cases h404 : status = 404
    · rw [if_pos h404]
      exact qstep_rfl s
    · rw [if_neg h404]
      by_cases hok : respOk status = false
      · rw [if_pos hok]
        exact qstep_rfl s
      · rw [if_neg hok]
        exact qstep_colorsPhaseState s body

theorem qstep_syncImagesComplete (s : SDK) (res : Fetch ImageBody) :
    QStep s (syncImagesComplete s res) := by
  have hgen : ∀ m : SDK, QStep s m → QStep s { m with imagesSyncInFlight := false } :=
    fun m hm => qstep_trans hm (qstep_of_proj rfl rfl)
  unfold syncImagesComplete
  dsimp only
  apply hgen
  unfold syncImagesFetchPhase
  cases res with
  | netError => exact qstep_rfl s
  | resp status body =>
    dsimp only
    by_cases h404 : status = 404
    · rw [if_pos h404]
      exact qstep_rfl s
    · rw [if_neg h404]
      by_cases hok : respOk status = false
      · rw [if_pos hok]
        exact qstep_rfl s
      · rw [if_neg hok]
        exact qstep_imagesPhaseState s body

theorem qstep_syncStoreComplete (s : SDK) (ident : String) (res : Fetch StoreBody) :
    QStep s (syncStoreComplete s ident res) := by
  have hgen : ∀ m : SDK, QStep s m →
      QStep s { m with syncingStores := eraseA m.syncingStores ident } :=
    fun m hm => qstep_trans hm (qstep_of_proj rfl rfl)
  unfold syncStoreComplete
  dsimp only
  apply hgen
  unfold syncStoreFetchPhase
  cases res with
  | netError => exact qstep_rfl s
  | resp status body =>
    dsimp only
    by_cases h404 : status = 404
    · rw [if_pos h404]
      exact qstep_rfl s
    · rw [if_neg h404]
      by_cases hok : respOk status = false
      · rw [if_pos hok]
        exact qstep_rfl s
      · rw [if_neg hok]
        exact qstep_storePhaseState s ident body

theorem qstep_syncColorsFull (s : SDK) (res : Fetch ColorBody) :
    QStep s (syncColorsFull s res) := by
  unfold syncColorsFull
  split
  · exact qstep_rfl s
  split
  · exact qstep_rfl s
  · exact qstep_trans (qstep_syncColorsStart s) (qstep_syncColorsComplete _ res)

theorem qstep_syncImagesFull (s : SDK) (res : Fetch ImageBody) :
    QStep s (syncImagesFull s res) := by
  unfold syncImagesFull
  split
  · exact qstep_rfl s
  split
  · exact qstep_rfl s
  · exact qstep_trans (qstep_syncImagesStart s) (qstep_syncImagesComplete _ res)

theorem qstep_syncStoreFull (s : SDK) (ident : String) (res : Fetch StoreBody) :
    QStep s (syncStoreFull s ident false res) := by
  unfold syncStoreFull
  split
  · exact qstep_rfl s
  split
  · exact qstep_rfl s
  · exact qstep_trans (qstep_syncStoreStart s ident false) (qstep_syncStoreComplete _ ident res)

/-- Erasing the in-flight marker of a tab with no outstanding fetch preserves
the invariant. -/
theorem winv_erase_syncing (m : SDK) (tab : String) (hm : WInv m)
    (hz : countA m.pendingTabFetches tab = 0) :
    WInv { m with syncingTabs := eraseA m.syncingTabs tab } := by
  intro t
  by_cases ht : t = tab
  · subst ht
    refine ⟨(hm t).1, ?_⟩
    intro h1
    exact absurd (hz.symm.trans h1) (by decide)
  · refine ⟨(hm t).1, ?_⟩
    intro h1
    show t ∈ eraseA m.syncingTabs tab
    exact mem_eraseA_of_ne _ _ _ ht ((hm t).2 h1)

/-- Completion of an outstanding tab fetch preserves the invariant: the
instrumentation entry is consumed first, the response processing (including
the binding fan-out, which may start fetches for other tabs) is a query-layer
step, and the `finally` then clears the marker of a tab whose outstanding
count is zero. -/
theorem winv_syncTabComplete (s : SDK) (tab : String) (res : Fetch TabBody)
    (h : WInv s) (hpend : tab ∈ s.pendingTabFetches) :
    WInv (syncTabComplete s tab res) := by
  have hcount : countA s.pendingTabFetches tab = 1 :=
    le_antisymm (h tab).1 (countA_pos_of_mem _ _ hpend)
  have hsync : tab ∈ s.syncingTabs := (h tab).2 hcount
  have h0 : WInv { s with pendingTabFetches := eraseA s.pendingTabFetches tab } := by
    intro t
    by_cases ht : t = tab
    · subst ht
      have hz : countA (eraseA s.pendingTabFetches t) t = 0 := by
        rw [countA_eraseA_self _ _ hpend, hcount]
      constructor
      · show countA (eraseA s.pendingTabFetches t) t ≤ 1
        rw [hz]
        exact Nat.zero_le 1
      · intro h1
        show t ∈ s.syncingTabs
        rw [hz] at h1
        exact absurd h1 (by decide)
    · constructor
      · show countA (eraseA s.pendingTabFetches tab) t ≤ 1
        rw [countA_eraseA_ne _ _ _ ht]
        exact (h t).1
      · intro h1
        show t ∈ s.syncingTabs
        have h1d : countA (eraseA s.pendingTabFetches tab) t = 1 := h1
        rw [countA_eraseA_ne _ _ _ ht] at h1d
        exact (h t).2 h1d
  have hzero : countA (eraseA s.pendingTabFetches tab) tab = 0 := by
    rw [countA_eraseA_self _ _ hpend, hcount]
  have hq : QStep { s with pendingTabFetches := eraseA s.pendingTabFetches tab }
      (match syncTabFetchPhase { s with pendingTabFetches := eraseA s.pendingTabFetches tab }
         tab res with
       | Except.ok t => t
       | Except.error _ => { s with pendingTabFetches := eraseA s.pendingTabFetches tab }) := by
    unfold syncTabFetchPhase
    cases res with
    | netError => exact qstep_rfl _
    | resp status body =>
      dsimp only
      by_cases h404 : status = 404
      · rw [if_pos h404]
        exact qstep_rfl _
      · rw [if_neg h404]
        by_cases hok : respOk status = false
        · rw [if_pos hok]
          exact qstep_rfl _
        · rw [if_neg hok]
          exact qstep_tabPhaseState _ tab body
  unfold syncTabComplete
  dsimp only
  apply winv_erase_syncing
  · exact hq.1 h0
  · exact (hq.2 tab hsync).2.trans hzero

/-- A whole non-forced `#syncTab` call preserves the invariant. -/
theorem winv_syncTabFull (s : SDK) (tab : String) (res : Fetch TabBody) (h : WInv s) :
    WInv (syncTabFull s tab false res) := by
  unfold syncTabFull
  by_cases h1 : s.configSet = false
  · rw [if_pos h1]
    exact h
  · rw [if_neg h1]
    by_cases h2 : tab ∈ s.syncingTabs ∧ false = false
    · rw [if_pos h2]
      exact h
    · rw [if_neg h2]
      have hstart : syncTabStart s tab false =
          { s with syncingTabs := insertA s.syncingTabs tab,
                   pendingTabFetches := tab :: s.pendingTabFetches } := by
        unfold syncTabStart
        rw [if_neg h1, if_neg h2]
      apply winv_syncTabComplete
      · exact (qstep_syncTabStart s tab).1 h
      · rw [hstart]
        exact List.mem_cons_self _ _

/-- The non-forced operations: public queries, the binding registry, the
language operations and the non-forced sync lifecycle.  `tabFinish` consumes
an outstanding fetch; `tabStart` is a plain non-forced `#syncTab` prefix as
fired by cache misses or the auto-subscribe path. -/
inductive NFOp : SDK → SDK → Prop where
  | translationQ (s : SDK) (key tab : String) (d : Option String) :
      NFOp s (translationGet s key tab d).2
  | colorQ (s : SDK) (key : String) (d : JSVal) : NFOp s (colorGet s key d).2
  | imageQ (s : SDK) (key : String) (d : JSVal) : NFOp s (imageGet s key d).2
  | dataStoreQ (s : SDK) (ident : String) : NFOp s (dataStorePublic s ident).2
  | resolveQ (s : SDK) (reference : String) (d : Option JSVal) :
      NFOp s (resolveVal s reference d).2
  | observeQ (s : SDK) (reference : String) (lid : Nat) (d : Option JSVal) (s2 : SDK)
      (l : Nat) (v : JSVal) (h : observeE s reference lid d = Except.ok (s2, l, v)) :
      NFOp s s2
  | unsubQ (s : SDK) (nref : String) (lid : Nat) : NFOp s (unsubscribe s nref lid)
  | notifyQ (s : SDK) : NFOp s (notifyBindings s).1
  | applyLangQ (s : SDK) (language : String) (e : Bool) (r : String) :
      NFOp s (applyLanguage s language e r).1
  | setLangQ (s : SDK) (language : String) : NFOp s (setLanguage s language).1
  | resolveInitQ (s : SDK) (navLangs : List String) :
      NFOp s (resolveInitialLanguage s navLangs).1
  | refreshQ (s : SDK) : NFOp s (refreshAutoSubscribedStarts s)
  | tabStart (s : SDK) (tab : String) : NFOp s (syncTabStart s tab false)
  | tabFinish (s : SDK) (tab : String) (res : Fetch TabBody)
      (h : tab ∈ s.pendingTabFetches) : NFOp s (syncTabComplete s tab res)
  | tabFull (s : SDK) (tab : String) (res : Fetch TabBody) :
      NFOp s (syncTabFull s tab false res)
  | colorsFull (s : SDK) (res : Fetch ColorBody) : NFOp s (syncColorsFull s res)
  | imagesFull (s : SDK) (res : Fetch ImageBody) : NFOp s (syncImagesFull s res)
  | storeFull (s : SDK) (ident : String) (res : Fetch StoreBody) :
      NFOp s (syncStoreFull s ident false res)

/-- Every non-forced operation preserves the one-outstanding-fetch invariant. -/
theorem nfop_winv : ∀ {s s2 : SDK}, NFOp s s2 → WInv s → WInv s2
  | _, _, .translationQ s key tab d, h => (qstep_translationGet s key tab d).1 h
  | _, _, .colorQ s key d, h => (qstep_colorGet s key d).1 h
  | _, _, .imageQ s key d, h => (qstep_imageGet s key d).1 h
  | _, _, .dataStoreQ s ident, h => (qstep_dataStorePublic s ident).1 h
  | _, _, .resolveQ s reference d, h => (qstep_resolveVal s reference d).1 h
  | _, _, .observeQ s reference lid d s3 l v hobs, h =>
    (qstep_observeE s reference lid d s3 l v hobs).1 h
  | _, _, .unsubQ s nref lid, h => (qstep_unsubscribe s nref lid).1 h
  | _, _, .notifyQ s, h => (qstep_notifyBindings s).1 h
  | _, _, .applyLangQ s language e r, h => (qstep_applyLanguage s language e r).1 h
  | _, _, .setLangQ s language, h => (qstep_setLanguage s language).1 h
  | _, _, .resolveInitQ s navLangs, h => (qstep_resolveInitialLanguage s navLangs).1 h
  | _, _, .refreshQ s, h => (qstep_refreshAutoSubscribedStarts s).1 h
  | _, _, .tabStart s tab, h => (qstep_syncTabStart s tab).1 h
  | _, _, .tabFinish s tab res hpend, h => winv_syncTabComplete s tab res h hpend
  | _, _, .tabFull s tab res, h => winv_syncTabFull s tab res h
  | _, _, .colorsFull s res, h => (qstep_syncColorsFull s res).1 h
  | _, _, .imagesFull s res, h => (qstep_syncImagesFull s res).1 h
  | _, _, .storeFull s ident res, h => (qstep_syncStoreFull s ident res).1 h

/-- **Claim C4** (confirmed).  (a) For a configured SDK whose cache misses
`(tab, key)` and with no fetch outstanding or marked for `tab`,
`translation(key, tab)` with no default returns the documented `[tab:key]`
fallback and leaves exactly one outstanding fetch for `tab`, with the
in-flight marker set.  (b) Every non-forced operation preserves the invariant
that each tab has at most one outstanding fetch, guarded by its in-flight
marker — so repeated cache-miss calls or the auto-subscribe path never start
a second concurrent fetch for the same tab. -/
theorem claim_C4_one_fetch_per_tab :
    (∀ (s : SDK) (key tab : String),
      s.configSet = true → tab ≠ "" → tab ∉ s.syncingTabs →
      countA s.pendingTabFetches tab = 0 →
      translationLookup s tab key = none →
      (translationGet s key tab none).1 = "[" ++ tab ++ ":" ++ key ++ "]" ∧
      countA (translationGet s key tab none).2.pendingTabFetches tab = 1 ∧
      tab ∈ (translationGet s key tab none).2.syncingTabs) ∧
    (∀ (s s2 : SDK), WInv s → NFOp s s2 → WInv s2) := by
  constructor
  · intro s key tab hcfg hne hnis hz hmiss
    have hcfg2 : ¬ s.configSet = false := by
      rw [hcfg]
      decide
    by_cases haut : tab ∈ s.autoSubscribedTabs
    · have hens : ensureTabSubscription s tab = s := by
        unfold ensureTabSubscription
        rw [if_neg hne, if_pos haut]
      have hstart : syncTabStart s tab false =
          { s with syncingTabs := insertA s.syncingTabs tab,
                   pendingTabFetches := tab :: s.pendingTabFetches } := by
        unfold syncTabStart
        rw [if_neg hcfg2, if_neg (by simp [hnis])]
      have hgoal : translationGet s key tab none =
          ("[" ++ tab ++ ":" ++ key ++ "]", syncTabStart s tab false) := by
        unfold translationGet
        dsimp only
        rw [hens, hmiss]
        rfl
      rw [hgoal, hstart]
      refine ⟨rfl, ?_, ?_⟩
      · show countA (tab :: s.pendingTabFetches) tab = 1
        simp [countA, hz]
      · exact self_mem_insertA _ _
    · have hens : ensureTabSubscription s tab =
          { s with autoSubscribedTabs := insertA s.autoSubscribedTabs tab,
                   syncingTabs := insertA s.syncingTabs tab,
                   pendingTabFetches := tab :: s.pendingTabFetches } := by
        have hc2 : ¬ ({ s with autoSubscribedTabs := insertA s.autoSubscribedTabs tab } :
            SDK).configSet = false := hcfg2
        have hn2 : ¬ (tab ∈ ({ s with autoSubscribedTabs := insertA s.autoSubscribedTabs tab } :
            SDK).syncingTabs ∧ false = false) := fun hx => hnis hx.1
        unfold ensureTabSubscription
        rw [if_neg hne, if_neg haut]
        unfold syncTabStart
        rw [if_neg hc2, if_neg hn2]
      have hval : translationLookup (ensureTabSubscription s tab) tab key = none := by
        rw [hens]
        exact hmiss
      have hmem : tab ∈ (ensureTabSubscription s tab).syncingTabs := by
        rw [hens]
        exact self_mem_insertA _ _
      have hs2 : syncTabStart (ensureTabSubscription s tab) tab false =
          ensureTabSubscription s tab := by
        have hc : ¬ (ensureTabSubscription s tab).configSet = false := by
          rw [hens]
          exact hcfg2
        unfold syncTabStart
        rw [if_neg hc, if_pos ⟨hmem, rfl⟩]
      have hgoal : translationGet s key tab none =
          ("[" ++ tab ++ ":" ++ key ++ "]", ensureTabSubscription s tab) := by
        unfold translationGet
        dsimp only
        rw [hval, hs2]
        rfl
      rw [hgoal]
      refine ⟨rfl, ?_, hmem⟩
      show countA (ensureTabSubscription s tab).pendingTabFetches tab = 1
      rw [hens]
      show countA (tab :: s.pendingTabFetches) tab = 1
      simp [countA, hz]
  · exact fun s s2 h hop => nfop_winv hop h

/-- Instantiation of claim C4 on a fresh configured SDK: the first
`translation('title', 'home')` returns `[home:title]` with exactly one
outstanding fetch, and a non-forced start from the empty state satisfies the
invariant. -/
theorem claim_C4_witness :
    ((translationGet { initSDK with configSet := true } "title" "home" none).1 =
        "[" ++ "home" ++ ":" ++ "title" ++ "]" ∧
      countA (translationGet { initSDK with configSet := true } "title" "home"
        none).2.pendingTabFetches "home" = 1 ∧
      "home" ∈ (translationGet { initSDK with configSet := true } "title" "home"
        none).2.syncingTabs) ∧
    WInv (syncTabStart { initSDK with configSet := true } "home" false) := by
  constructor
  · exact claim_C4_one_fetch_per_tab.1 { initSDK with configSet := true } "title" "home"
      rfl (by decide) (by decide) rfl rfl
  · have hw : WInv { initSDK with configSet := true } := by
      intro t
      show countA ([] : List String) t ≤ 1 ∧
        (countA ([] : List String) t = 1 → t ∈ ([] : List String))
      simp [countA]
    exact claim_C4_one_fetch_per_tab.2 { initSDK with configSet := true } _
      hw (NFOp.tabStart { initSDK with configSet := true } "home")


end CMSCure
